import Mathlib

/-!
# wkey: a client for the WifiKeyboard HTTP backend

A shallow embedding of `wkey.go`.  Go values are modelled as follows.

* `string` is `String` (well-formed UTF-8); `range s` walks the code points
  `s.toList`.  Where the bytes of a Go string matter, the string is a list of
  bytes and `decodeRunes` gives the runes `range` yields (`WKey.SendBytes`).
* `int` is the 64-bit two's-complement integer: an `Int` kept inside
  `[minInt, maxInt]`, with `wrapInt` applied after every `+`/`-`.
* `error` is `Option GoError` (`none` is `nil`).
* The network is a `Transport`: a function of the requests issued so far and
  of the URL.  Every function threads the list of requested URLs.
* A pointer receiver `k *WKey` is a `WKey` passed in and handed back.
-/

namespace wkey

/-! ## Machine integers -/

/-- Largest value of Go's `int` on a 64-bit platform, `2^63 - 1`. -/
def maxInt : Int := 9223372036854775807

/-- Smallest value of Go's `int` on a 64-bit platform, `-2^63`. -/
def minInt : Int := -9223372036854775808

/-- Whether an integer is representable as a Go `int`. -/
def isInt (x : Int) : Prop := minInt ≤ x ∧ x ≤ maxInt

instance (x : Int) : Decidable (isInt x) := by
  unfold isInt
  exact inferInstance

/-- Two's-complement wrap-around of a mathematical integer into `int`. -/
def wrapInt (x : Int) : Int :=
  (x + 9223372036854775808) % 18446744073709551616 - 9223372036854775808

/-- The text `fmt.Sprintf("%v", x)` prints for an integer `x`. -/
def decimal (x : Int) : String := x.repr

/-! ## Errors and the transport -/

/-- Values of Go's `error` interface that the package can return. -/
inductive GoError where
  /-- An error produced by `net/http` or `ioutil`. -/
  | net (msg : String)
  /-- The result of `errors.New(msg)`. -/
  | errorString (msg : String)
  deriving DecidableEq

/-- The method `Error()` of an error value. -/
def GoError.Error : GoError → String
  | .net msg => msg
  | .errorString msg => msg

/-- What `http.Get(url)` followed by `ioutil.ReadAll(resp.Body)` produces. -/
inductive HttpOutcome where
  /-- The value `http.Get` returned a non-nil error. -/
  | getFailed (err : GoError)
  /-- The value `ioutil.ReadAll` returned a non-nil error. -/
  | readFailed (err : GoError)
  /-- Both calls succeeded and the body was read in full. -/
  | body (data : String)

/-- The network seen from the client: given the URLs requested so far and the
URL requested now, the outcome of the GET. -/
abbrev Transport := List String → String → HttpOutcome

/-- The function `qry`: one GET, returning the body or the error, and
recording the URL in the request log. -/
def qry (t : Transport) (log : List String) (url : String) :
    Except GoError String × List String :=
  match t log url with
  | .getFailed err => (.error err, log ++ [url])
  | .readFailed err => (.error err, log ++ [url])
  | .body data => (.ok data, log ++ [url])

/-! ## The session -/

/-- The struct `WKey`. -/
structure WKey where
  host : String
  seq : Int
  deriving DecidableEq

/-- Key code constants of the package. -/
def RIGHT : Int := 39
/-- Key code constant. -/
def LEFT : Int := 37
/-- Key code constant. -/
def RETURN : Int := 13
/-- Key code constant. -/
def END : Int := 35
/-- Key code constant. -/
def BEGIN : Int := 36
/-- Key code constant. -/
def SHIFT : Int := 16
/-- Key code constant. -/
def DEL : Int := 46

/-! ## The regular expression `seqConfirmed = ([0-9]+);` -/

/-- The literal head of `rxSequence`. -/
def rxLiteral : List Char := "seqConfirmed = ".toList

/-- Removes the literal `l` from the front of `cs`, if it is there. -/
def stripLit : List Char → List Char → Option (List Char)
  | [], cs => some cs
  | _ :: _, [] => none
  | l :: ls, c :: cs => if l = c then stripLit ls cs else none

/-- Matches `rxSequence` anchored at the start of `cs` and returns capture
group 1: the literal, the longest run of `[0-9]` (at least one), then `;`. -/
def matchHere (cs : List Char) : Option (List Char) :=
  match stripLit rxLiteral cs with
  | none => none
  | some rest =>
    match rest.takeWhile Char.isDigit, rest.dropWhile Char.isDigit with
    | [], _ => none
    | d :: ds, ';' :: _ => some (d :: ds)
    | _ :: _, _ => none

/-- Capture group 1 of `rxSequence.FindStringSubmatch(resp)`: the leftmost
match, or `none` when the result is `nil`. -/
def findSubmatch : List Char → Option (List Char)
  | [] => matchHere []
  | c :: cs =>
    match matchHere (c :: cs) with
    | some ds => some ds
    | none => findSubmatch cs

/-! ## `strconv.Atoi` -/

/-- The two kinds of `*strconv.NumError`. -/
inductive NumError where
  /-- The kind `ErrSyntax`: empty input or an invalid digit. -/
  | invalid
  /-- The kind `ErrRange`: the value does not fit `int`. -/
  | range
  deriving DecidableEq

/-- Value of a string of decimal digits, `none` when a character is not a
digit. -/
def digitsValue : List Char → Nat → Option Nat
  | [], acc => some acc
  | c :: cs, acc =>
    if c.isDigit then digitsValue cs (10 * acc + (c.toNat - 48)) else none

/-- The part of `strconv.ParseInt(s, 10, 0)` after the sign: the digits are
read as a magnitude, which is clamped to `int` with a range error when it
does not fit; no digits or an invalid digit give 0 with a syntax error. -/
def parseMagnitude (neg : Bool) (ds : List Char) : Int × Option NumError :=
  match ds with
  | [] => (0, some .invalid)
  | d :: rest =>
    match digitsValue (d :: rest) 0 with
    | none => (0, some .invalid)
    | some v =>
      if neg then
        if (v : Int) > 9223372036854775808 then (minInt, some .range) else (-(v : Int), none)
      else
        if (v : Int) > maxInt then (maxInt, some .range) else ((v : Int), none)

/-- The function `strconv.Atoi` for a 64-bit `int`: an optional sign, then
decimal digits. -/
def Atoi (s : List Char) : Int × Option NumError :=
  match s with
  | [] => (0, some .invalid)
  | c :: cs =>
    if c = '-' then parseMagnitude true cs
    else if c = '+' then parseMagnitude false cs
    else parseMagnitude false (c :: cs)

/-! ## `Connect` -/

/-- Outcome of `Connect`: the pair `(*WKey, error)`, or a run-time panic. -/
inductive ConnectResult where
  /-- The call returned `(ret, nil)`. -/
  | session (k : WKey)
  /-- The call returned `(nil, err)`. -/
  | error (err : GoError)
  /-- Indexing the `nil` match slice at `[1]` panicked. -/
  | panicked
  deriving DecidableEq

/-- The function `Connect`, with the request log it leaves. -/
def Connect (t : Transport) (log : List String) (host : String) :
    ConnectResult × List String :=
  match qry t log ("http://" ++ host ++ ":7777/") with
  | (.error err, log1) => (.error err, log1)
  | (.ok resp, log1) =>
    match findSubmatch resp.toList with
    | none => (.panicked, log1)
    | some sequence =>
      let seqint := (Atoi sequence).1
      if seqint < 1 then
        (.error (.errorString "cannot read sequence index"), log1)
      else
        (.session { host := host, seq := seqint }, log1)

/-! ## Commands -/

/-- What a method on `*WKey` leaves behind: the returned error, the receiver
and the request log. -/
structure CallResult where
  err : Option GoError
  k : WKey
  log : List String

/-- One fragment of the payload of `Send`: `fmt.Sprintf("C%v,", r)`. -/
def charFragment (r : Char) : String := "C" ++ decimal r.toNat ++ ","

/-- The loop of `Send`: each rune is put in front of `buf` and `seq` is
incremented. -/
def sendLoop : List Char → String × Int → String × Int
  | [], st => st
  | r :: rs, (buf, seq) =>
    sendLoop rs ("C" ++ decimal r.toNat ++ "," ++ buf, wrapInt (seq + 1))

/-- The method `Send`. -/
def WKey.Send (t : Transport) (k : WKey) (s : String) (log : List String) :
    CallResult :=
  let st := sendLoop s.toList ("", k.seq)
  let k1 : WKey := { k with seq := st.2 }
  let url := "http://" ++ k1.host ++ ":7777/key?" ++ decimal (wrapInt (k1.seq - 1))
    ++ "," ++ st.1
  match qry t log url with
  | (.error err, log1) => { err := some err, k := k1, log := log1 }
  | (.ok resp, log1) =>
    if resp ≠ "ok" then
      { err := some (.errorString resp), k := k1, log := log1 }
    else
      { err := none, k := k1, log := log1 }

/-- The method `KeyDown`. -/
def WKey.KeyDown (t : Transport) (k : WKey) (code : Int) (log : List String) :
    CallResult :=
  let buf := "D" ++ decimal code ++ ","
  let url := "http://" ++ k.host ++ ":7777/key?" ++ decimal k.seq ++ "," ++ buf
  match qry t log url with
  | (.error err, log1) => { err := some err, k := k, log := log1 }
  | (.ok resp, log1) =>
    if resp ≠ "ok" then
      { err := some (.errorString resp), k := k, log := log1 }
    else
      { err := none, k := { k with seq := wrapInt (k.seq + 1) }, log := log1 }

/-- The method `KeyUp`. -/
def WKey.KeyUp (t : Transport) (k : WKey) (code : Int) (log : List String) :
    CallResult :=
  let buf := "U" ++ decimal code ++ ","
  let url := "http://" ++ k.host ++ ":7777/key?" ++ decimal k.seq ++ "," ++ buf
  match qry t log url with
  | (.error err, log1) => { err := some err, k := k, log := log1 }
  | (.ok resp, log1) =>
    if resp ≠ "ok" then
      { err := some (.errorString resp), k := k, log := log1 }
    else
      { err := none, k := { k with seq := wrapInt (k.seq + 1) }, log := log1 }

/-- The method `Key`: both errors are dropped. -/
def WKey.Key (t : Transport) (k : WKey) (code : Int) (log : List String) :
    WKey × List String :=
  let r1 := k.KeyDown t code log
  let r2 := r1.k.KeyUp t code r1.log
  (r2.k, r2.log)

/-- The method `Clear`. -/
def WKey.Clear (t : Transport) (k : WKey) (log : List String) :
    WKey × List String :=
  let a := k.Key t END log
  let b := a.1.KeyDown t SHIFT a.2
  let c := b.k.Key t BEGIN b.log
  let d := c.1.KeyUp t SHIFT c.2
  d.k.Key t DEL d.log

/-! ## Sample transports -/

/-- A transport that answers every request with the same body. -/
def always (body : String) : Transport := fun _ _ => .body body

/-- A transport whose every request fails in `http.Get`. -/
def unreachable (msg : String) : Transport := fun _ _ => .getFailed (.net msg)

/-! ## Occurrences of the pattern in a status page -/

/-- The text `cs` begins with `seqConfirmed = <ds>;`, where `ds` is a
non-empty string of decimal digits. -/
def MatchesAt (cs ds : List Char) : Prop :=
  ∃ post, cs = rxLiteral ++ ds ++ ';' :: post ∧ ds ≠ [] ∧ ∀ c ∈ ds, c.isDigit = true

/-- The text `body` contains `seqConfirmed = <ds>;` somewhere. -/
def Occurs (body ds : List Char) : Prop :=
  ∃ pre rest, body = pre ++ rest ∧ MatchesAt rest ds

/-- The leftmost occurrence of the pattern in `body` starts right after
`pre` and carries the digits `ds`. -/
def FirstMatchAfter (body pre ds : List Char) : Prop :=
  (∃ rest, body = pre ++ rest ∧ MatchesAt rest ds) ∧
    ∀ pre2 rest2 ds2, body = pre2 ++ rest2 → MatchesAt rest2 ds2 → pre.length ≤ pre2.length

/-- The number a string of decimal digits denotes. -/
def decimalValue (ds : List Char) : Nat :=
  ds.foldl (fun acc c => 10 * acc + (c.toNat - 48)) 0

/-! ## The payload the protocol describes -/

/-- The character batch as the protocol words it: the fragments
`C<code point>,` of the characters, joined in reverse input order. -/
def reversedFragments (cs : List Char) : String :=
  String.join (cs.reverse.map charFragment)

/-- The command endpoint as the protocol words it:
`http://<host>:7777/key?<seq>,<payload>`. -/
def commandUrl (host : String) (seq : Int) (payload : String) : String :=
  "http://" ++ host ++ ":7777/key?" ++ decimal seq ++ "," ++ payload

/-- The requests added to the log between `before` and `after` all go to
`http://<host>:7777/`. -/
def Targets (host : String) (before after : List String) : Prop :=
  ∃ added, after = before ++ added ∧
    ∀ u ∈ added, ∃ rest, u = "http://" ++ host ++ ":7777/" ++ rest

/-- A transport that rejects the first request with `busy` and answers `ok`
to every later one. -/
def rejectFirst : Transport :=
  fun log _ => if log.isEmpty then .body "busy" else .body "ok"

/-! ## Go strings as bytes -/

/-- The error rune `utf8.RuneError`, U+FFFD. -/
def runeError : Char := Char.ofNat 65533

/-- Length of the UTF-8 sequence a lead byte announces (the table `first` of
package `utf8`): 2, 3 or 4, and 0 for a byte that cannot start a multi-byte
sequence. -/
def seqSize (p0 : Nat) : Nat :=
  if 194 ≤ p0 ∧ p0 ≤ 223 then 2
  else if 224 ≤ p0 ∧ p0 ≤ 239 then 3
  else if 240 ≤ p0 ∧ p0 ≤ 244 then 4
  else 0

/-- Whether the byte `b1` may follow the lead byte `p0` (the table
`acceptRanges` of package `utf8`). -/
def accepts (p0 b1 : Nat) : Bool :=
  if p0 = 224 then 160 ≤ b1 && b1 ≤ 191
  else if p0 = 237 then 128 ≤ b1 && b1 ≤ 159
  else if p0 = 240 then 144 ≤ b1 && b1 ≤ 191
  else if p0 = 244 then 128 ≤ b1 && b1 ≤ 143
  else 128 ≤ b1 && b1 ≤ 191

/-- Whether `b` is a continuation byte, `0x80..0xBF`. -/
def isCont (b : Nat) : Bool := 128 ≤ b && b ≤ 191

/-- The runes `for _, r := range s` yields for the Go string whose bytes are
`s` (numbers below 256): UTF-8 decoding in which a byte that does not start a
well-formed sequence yields `utf8.RuneError` and is skipped alone. -/
def decodeRunes : List Nat → List Char
  | [] => []
  | p0 :: rest =>
    let skip := runeError :: decodeRunes rest
    if p0 < 128 then Char.ofNat p0 :: decodeRunes rest
    else if seqSize p0 = 2 then
      match rest with
      | b1 :: tl =>
        if accepts p0 b1 then
          Char.ofNat (p0 % 32 * 64 + b1 % 64) :: decodeRunes tl
        else skip
      | _ => skip
    else if seqSize p0 = 3 then
      match rest with
      | b1 :: b2 :: tl =>
        if accepts p0 b1 && isCont b2 then
          Char.ofNat (p0 % 16 * 4096 + b1 % 64 * 64 + b2 % 64) :: decodeRunes tl
        else skip
      | _ => skip
    else if seqSize p0 = 4 then
      match rest with
      | b1 :: b2 :: b3 :: tl =>
        if accepts p0 b1 && isCont b2 && isCont b3 then
          Char.ofNat (p0 % 8 * 262144 + b1 % 64 * 4096 + b2 % 64 * 64 + b3 % 64)
            :: decodeRunes tl
        else skip
      | _ => skip
    else skip

/-- Whether the bytes are well-formed UTF-8 (`utf8.ValidString`): decoding
meets no byte that is turned into `utf8.RuneError`. -/
def validUTF8 : List Nat → Bool
  | [] => true
  | p0 :: rest =>
    if p0 < 128 then validUTF8 rest
    else if seqSize p0 = 2 then
      match rest with
      | b1 :: tl => accepts p0 b1 && validUTF8 tl
      | _ => false
    else if seqSize p0 = 3 then
      match rest with
      | b1 :: b2 :: tl => accepts p0 b1 && isCont b2 && validUTF8 tl
      | _ => false
    else if seqSize p0 = 4 then
      match rest with
      | b1 :: b2 :: b3 :: tl => accepts p0 b1 && isCont b2 && isCont b3 && validUTF8 tl
      | _ => false
    else false

/-- The method `Send` on an arbitrary Go string, given by its bytes: the loop
`for _, r := range s` sees the runes `decodeRunes s` and nothing else of `s`. -/
def WKey.SendBytes (t : Transport) (k : WKey) (s : List Nat) (log : List String) :
    CallResult :=
  k.Send t (String.mk (decodeRunes s)) log

/-! ## Lemmas on machine integers -/

theorem wrapInt_of_isInt {x : Int} (h : isInt x) : wrapInt x = x := by
  unfold isInt minInt maxInt at h
  unfold wrapInt
  omega

theorem isInt_wrapInt (x : Int) : isInt (wrapInt x) := by
  unfold isInt minInt maxInt wrapInt
  omega

theorem wrapInt_wrapInt_add (a b : Int) : wrapInt (wrapInt a + b) = wrapInt (a + b) := by
  unfold wrapInt
  omega

/-! ## Lemmas on the transport -/

theorem qry_log (t : Transport) (log : List String) (url : String) :
    (qry t log url).2 = log ++ [url] := by
  unfold qry
  cases t log url <;> rfl

theorem qry_body (t : Transport) (log : List String) (url body : String)
    (h : t log url = .body body) : (qry t log url).1 = .ok body := by
  unfold qry
  rw [h]

theorem qry_getFailed (t : Transport) (log : List String) (url : String) (err : GoError)
    (h : t log url = .getFailed err) : (qry t log url).1 = .error err := by
  unfold qry
  rw [h]

theorem qry_readFailed (t : Transport) (log : List String) (url : String) (err : GoError)
    (h : t log url = .readFailed err) : (qry t log url).1 = .error err := by
  unfold qry
  rw [h]

/-! ## Lemmas on the loop of `Send` -/

theorem join_snoc (l : List String) (x : String) :
    String.join (l ++ [x]) = String.join l ++ x := by
  unfold String.join
  rw [List.foldl_append]
  rfl

theorem reversedFragments_cons (c : Char) (cs : List Char) :
    reversedFragments (c :: cs) = reversedFragments cs ++ charFragment c := by
  unfold reversedFragments
  rw [List.reverse_cons, List.map_append, List.map_singleton, join_snoc]

theorem sendLoop_buf (cs : List Char) (buf : String) (seq : Int) :
    (sendLoop cs (buf, seq)).1 = reversedFragments cs ++ buf := by
  induction cs generalizing buf seq with
  | nil => simp [sendLoop, reversedFragments, String.join]
  | cons c cs ih =>
    rw [sendLoop, ih, reversedFragments_cons]
    simp only [charFragment, String.append_assoc]

theorem sendLoop_seq (cs : List Char) (buf : String) (seq : Int) (h : isInt seq) :
    (sendLoop cs (buf, seq)).2 = wrapInt (seq + cs.length) := by
  induction cs generalizing buf seq with
  | nil => simp [sendLoop, wrapInt_of_isInt h]
  | cons c cs ih =>
    rw [sendLoop, ih _ _ (isInt_wrapInt _), wrapInt_wrapInt_add]
    congr 1
    simp only [List.length_cons, Nat.cast_add, Nat.cast_one]
    omega

/-- The URL `Send` requests, and the receiver it leaves, whatever the
transport answers. -/
theorem Send_request (t : Transport) (k : WKey) (s : String) (log : List String)
    (h : isInt k.seq) :
    (k.Send t s log).log = log ++ ["http://" ++ k.host ++ ":7777/key?"
        ++ decimal (wrapInt (k.seq + s.length - 1)) ++ "," ++ reversedFragments s.toList]
      ∧ (k.Send t s log).k = { host := k.host, seq := wrapInt (k.seq + s.length) } := by
  have hb := sendLoop_buf s.toList "" k.seq
  have hs := sendLoop_seq s.toList "" k.seq h
  have hw : wrapInt (wrapInt (k.seq + s.length) - 1) = wrapInt (k.seq + s.length - 1) := by
    have := wrapInt_wrapInt_add (k.seq + s.length) (-1)
    simpa [sub_eq_add_neg] using this
  have hl : (s.toList.length : Int) = s.length := rfl
  unfold WKey.Send
  simp only [hb, hs, hl, hw, String.append_empty]
  have hq := qry_log t log ("http://" ++ k.host ++ ":7777/key?"
        ++ decimal (wrapInt (k.seq + s.length - 1)) ++ "," ++ reversedFragments s.toList)
  split
  · rename_i e l1 heq
    rw [heq] at hq
    exact ⟨by simpa using hq, rfl⟩
  · rename_i r l1 heq
    rw [heq] at hq
    split <;> exact ⟨by simpa using hq, rfl⟩

theorem Send_err_body (t : Transport) (k : WKey) (s : String) (log : List String)
    (h : isInt k.seq) (body : String)
    (hb : t log ("http://" ++ k.host ++ ":7777/key?"
        ++ decimal (wrapInt (k.seq + s.length - 1)) ++ "," ++ reversedFragments s.toList)
      = .body body) :
    (k.Send t s log).err = if body = "ok" then none else some (.errorString body) := by
  have hb1 := sendLoop_buf s.toList "" k.seq
  have hs := sendLoop_seq s.toList "" k.seq h
  have hw : wrapInt (wrapInt (k.seq + s.length) - 1) = wrapInt (k.seq + s.length - 1) := by
    have := wrapInt_wrapInt_add (k.seq + s.length) (-1)
    simpa [sub_eq_add_neg] using this
  have hl : (s.toList.length : Int) = s.length := rfl
  unfold WKey.Send
  simp only [hb1, hs, hl, hw, String.append_empty, qry, hb]
  by_cases hok : body = "ok" <;> simp [hok]

theorem Send_err_failed (t : Transport) (k : WKey) (s : String) (log : List String)
    (h : isInt k.seq) (err : GoError)
    (hb : t log ("http://" ++ k.host ++ ":7777/key?"
          ++ decimal (wrapInt (k.seq + s.length - 1)) ++ "," ++ reversedFragments s.toList)
        = .getFailed err
      ∨ t log ("http://" ++ k.host ++ ":7777/key?"
          ++ decimal (wrapInt (k.seq + s.length - 1)) ++ "," ++ reversedFragments s.toList)
        = .readFailed err) :
    (k.Send t s log).err = some err := by
  have hb1 := sendLoop_buf s.toList "" k.seq
  have hs := sendLoop_seq s.toList "" k.seq h
  have hw : wrapInt (wrapInt (k.seq + s.length) - 1) = wrapInt (k.seq + s.length - 1) := by
    have := wrapInt_wrapInt_add (k.seq + s.length) (-1)
    simpa [sub_eq_add_neg] using this
  have hl : (s.toList.length : Int) = s.length := rfl
  unfold WKey.Send
  rcases hb with hb | hb <;> simp only [hb1, hs, hl, hw, String.append_empty, qry, hb]

/-! ## Lemmas on `KeyDown` and `KeyUp` -/

theorem key_url_assoc (a x d : String) :
    a ++ "," ++ (d ++ x ++ ",") = a ++ ("," ++ d) ++ x ++ "," := by
  simp only [String.append_assoc]

theorem KeyDown_log (t : Transport) (k : WKey) (code : Int) (log : List String) :
    (k.KeyDown t code log).log = log ++ ["http://" ++ k.host ++ ":7777/key?" ++ decimal k.seq
      ++ ",D" ++ decimal code ++ ","] := by
  have hq := qry_log t log ("http://" ++ k.host ++ ":7777/key?" ++ decimal k.seq
      ++ "," ++ ("D" ++ decimal code ++ ","))
  rw [key_url_assoc] at hq
  unfold WKey.KeyDown
  simp only [key_url_assoc]
  split
  · rename_i e l1 heq
    rw [heq] at hq
    exact hq
  · rename_i r l1 heq
    rw [heq] at hq
    split <;> exact hq

theorem KeyDown_body (t : Transport) (k : WKey) (code : Int) (log : List String)
    (body : String)
    (hb : t log ("http://" ++ k.host ++ ":7777/key?" ++ decimal k.seq
      ++ ",D" ++ decimal code ++ ",") = .body body) :
    (k.KeyDown t code log).err = (if body = "ok" then none else some (.errorString body))
      ∧ (k.KeyDown t code log).k
        = (if body = "ok" then { host := k.host, seq := wrapInt (k.seq + 1) } else k) := by
  have hb1 : t log ("http://" ++ k.host ++ ":7777/key?" ++ decimal k.seq
      ++ ("," ++ "D") ++ decimal code ++ ",") = .body body := hb
  unfold WKey.KeyDown
  simp only [key_url_assoc, qry, hb1]
  by_cases hok : body = "ok" <;> simp [hok]

theorem KeyDown_failed (t : Transport) (k : WKey) (code : Int) (log : List String)
    (err : GoError)
    (hb : t log ("http://" ++ k.host ++ ":7777/key?" ++ decimal k.seq
          ++ ",D" ++ decimal code ++ ",") = .getFailed err
      ∨ t log ("http://" ++ k.host ++ ":7777/key?" ++ decimal k.seq
          ++ ",D" ++ decimal code ++ ",") = .readFailed err) :
    (k.KeyDown t code log).err = some err ∧ (k.KeyDown t code log).k = k := by
  have hb1 : t log ("http://" ++ k.host ++ ":7777/key?" ++ decimal k.seq
          ++ ("," ++ "D") ++ decimal code ++ ",") = .getFailed err
      ∨ t log ("http://" ++ k.host ++ ":7777/key?" ++ decimal k.seq
          ++ ("," ++ "D") ++ decimal code ++ ",") = .readFailed err := hb
  unfold WKey.KeyDown
  rcases hb1 with hb1 | hb1 <;> simp only [key_url_assoc, qry, hb1] <;> simp

theorem KeyUp_log (t : Transport) (k : WKey) (code : Int) (log : List String) :
    (k.KeyUp t code log).log = log ++ ["http://" ++ k.host ++ ":7777/key?" ++ decimal k.seq
      ++ ",U" ++ decimal code ++ ","] := by
  have hq := qry_log t log ("http://" ++ k.host ++ ":7777/key?" ++ decimal k.seq
      ++ "," ++ ("U" ++ decimal code ++ ","))
  rw [key_url_assoc] at hq
  unfold WKey.KeyUp
  simp only [key_url_assoc]
  split
  · rename_i e l1 heq
    rw [heq] at hq
    exact hq
  · rename_i r l1 heq
    rw [heq] at hq
    split <;> exact hq

theorem KeyUp_body (t : Transport) (k : WKey) (code : Int) (log : List String)
    (body : String)
    (hb : t log ("http://" ++ k.host ++ ":7777/key?" ++ decimal k.seq
      ++ ",U" ++ decimal code ++ ",") = .body body) :
    (k.KeyUp t code log).err = (if body = "ok" then none else some (.errorString body))
      ∧ (k.KeyUp t code log).k
        = (if body = "ok" then { host := k.host, seq := wrapInt (k.seq + 1) } else k) := by
  have hb1 : t log ("http://" ++ k.host ++ ":7777/key?" ++ decimal k.seq
      ++ ("," ++ "U") ++ decimal code ++ ",") = .body body := hb
  unfold WKey.KeyUp
  simp only [key_url_assoc, qry, hb1]
  by_cases hok : body = "ok" <;> simp [hok]

theorem KeyUp_failed (t : Transport) (k : WKey) (code : Int) (log : List String)
    (err : GoError)
    (hb : t log ("http://" ++ k.host ++ ":7777/key?" ++ decimal k.seq
          ++ ",U" ++ decimal code ++ ",") = .getFailed err
      ∨ t log ("http://" ++ k.host ++ ":7777/key?" ++ decimal k.seq
          ++ ",U" ++ decimal code ++ ",") = .readFailed err) :
    (k.KeyUp t code log).err = some err ∧ (k.KeyUp t code log).k = k := by
  have hb1 : t log ("http://" ++ k.host ++ ":7777/key?" ++ decimal k.seq
          ++ ("," ++ "U") ++ decimal code ++ ",") = .getFailed err
      ∨ t log ("http://" ++ k.host ++ ":7777/key?" ++ decimal k.seq
          ++ ("," ++ "U") ++ decimal code ++ ",") = .readFailed err := hb
  unfold WKey.KeyUp
  rcases hb1 with hb1 | hb1 <;> simp only [key_url_assoc, qry, hb1] <;> simp

/-! ## Lemmas on the pattern matcher -/

theorem stripLit_eq_some (l cs r : List Char) : stripLit l cs = some r ↔ cs = l ++ r := by
  induction l generalizing cs with
  | nil =>
    simp only [stripLit, Option.some.injEq, List.nil_append]
  | cons a l ih =>
    cases cs with
    | nil => simp [stripLit]
    | cons c cs =>
      simp only [stripLit, List.cons_append, List.cons.injEq]
      by_cases h : a = c
      · subst h
        simp [ih]
      · simp only [h, if_false]
        constructor
        · intro h2
          cases h2
        · intro h2
          exact absurd h2.1.symm h

theorem semicolon_not_digit : Char.isDigit ';' = false := by decide

theorem takeWhile_digits (ds post : List Char) (h : ∀ c ∈ ds, c.isDigit = true) :
    (ds ++ ';' :: post).takeWhile Char.isDigit = ds := by
  rw [List.takeWhile_append_of_pos h]
  simp [List.takeWhile, semicolon_not_digit]

theorem dropWhile_digits (ds post : List Char) (h : ∀ c ∈ ds, c.isDigit = true) :
    (ds ++ ';' :: post).dropWhile Char.isDigit = ';' :: post := by
  rw [List.dropWhile_append_of_pos h]
  simp [List.dropWhile, semicolon_not_digit]

theorem matchHere_of_matchesAt (cs ds : List Char) (h : MatchesAt cs ds) :
    matchHere cs = some ds := by
  obtain ⟨post, hcs, hne, hd⟩ := h
  have hs : stripLit rxLiteral cs = some (ds ++ ';' :: post) := by
    rw [stripLit_eq_some, hcs, List.append_assoc]
  unfold matchHere
  rw [hs]
  simp only [takeWhile_digits ds post hd, dropWhile_digits ds post hd]
  cases ds with
  | nil => exact absurd rfl hne
  | cons d ds => rfl

theorem matchesAt_of_matchHere (cs ds : List Char) (h : matchHere cs = some ds) :
    MatchesAt cs ds := by
  unfold matchHere at h
  split at h
  · cases h
  · rename_i rest hrest
    rw [stripLit_eq_some] at hrest
    split at h
    · cases h
    · rename_i d ds2 tl htake hdrop
      cases h
      refine ⟨tl, ?_, by simp, ?_⟩
      · have := List.takeWhile_append_dropWhile Char.isDigit rest
        rw [htake, hdrop] at this
        rw [hrest, ← this, List.append_assoc]
      · intro c hc
        rw [← htake] at hc
        exact List.mem_takeWhile_imp hc
    · cases h

theorem matchHere_iff (cs ds : List Char) : matchHere cs = some ds ↔ MatchesAt cs ds :=
  ⟨matchesAt_of_matchHere cs ds, matchHere_of_matchesAt cs ds⟩

theorem not_matchesAt_nil (ds : List Char) : ¬ MatchesAt [] ds := by
  rintro ⟨post, h, -, -⟩
  simp [rxLiteral] at h

theorem findSubmatch_cons (c : Char) (cs : List Char) :
    findSubmatch (c :: cs) = (matchHere (c :: cs)).orElse (fun _ => findSubmatch cs) := by
  rw [findSubmatch]
  cases matchHere (c :: cs) <;> rfl

theorem findSubmatch_firstMatch (body ds : List Char) (h : findSubmatch body = some ds) :
    ∃ pre, FirstMatchAfter body pre ds := by
  induction body with
  | nil =>
    rw [findSubmatch, matchHere_iff] at h
    exact absurd h (not_matchesAt_nil ds)
  | cons c cs ih =>
    rw [findSubmatch_cons] at h
    cases hm : matchHere (c :: cs) with
    | some d =>
      rw [hm] at h
      cases h
      exact ⟨[], ⟨c :: cs, rfl, (matchHere_iff _ _).1 hm⟩, fun _ _ _ _ _ => Nat.zero_le _⟩
    | none =>
      rw [hm] at h
      obtain ⟨pre, ⟨rest, hb, hr⟩, hleft⟩ := ih h
      refine ⟨c :: pre, ⟨rest, by rw [hb]; rfl, hr⟩, ?_⟩
      intro pre2 rest2 ds2 hb2 hr2
      cases pre2 with
      | nil =>
        rw [List.nil_append] at hb2
        rw [← hb2, ← matchHere_iff, hm] at hr2
        cases hr2
      | cons x pre2 =>
        rw [List.cons_append, List.cons.injEq] at hb2
        have := hleft pre2 rest2 ds2 hb2.2 hr2
        simp only [List.length_cons]
        omega

theorem findSubmatch_none (body : List Char) (h : findSubmatch body = none) (ds : List Char) :
    ¬ Occurs body ds := by
  induction body with
  | nil =>
    rintro ⟨pre, rest, hb, hr⟩
    have hrest : rest = [] := (List.append_eq_nil.1 hb.symm).2
    rw [hrest] at hr
    exact not_matchesAt_nil ds hr
  | cons c cs ih =>
    rw [findSubmatch_cons] at h
    cases hm : matchHere (c :: cs) with
    | some d =>
      rw [hm] at h
      cases h
    | none =>
      rw [hm] at h
      rintro ⟨pre, rest, hb, hr⟩
      cases pre with
      | nil =>
        rw [List.nil_append] at hb
        rw [← hb, ← matchHere_iff, hm] at hr
        cases hr
      | cons x pre =>
        rw [List.cons_append, List.cons.injEq] at hb
        exact ih h ⟨pre, rest, hb.2, hr⟩

theorem findSubmatch_of_firstMatch (body pre ds : List Char) (h : FirstMatchAfter body pre ds) :
    findSubmatch body = some ds := by
  obtain ⟨⟨rest, hb, hr⟩, hleft⟩ := h
  cases hf : findSubmatch body with
  | none => exact absurd ⟨pre, rest, hb, hr⟩ (findSubmatch_none body hf ds)
  | some d =>
    obtain ⟨pre2, ⟨rest2, hb2, hr2⟩, hleft2⟩ := findSubmatch_firstMatch body d hf
    have h1 := hleft pre2 rest2 d hb2 hr2
    have h2 := hleft2 pre rest ds hb hr
    have hlen : pre.length = pre2.length := by omega
    have hsplit := List.append_inj (hb.symm.trans hb2) hlen
    rw [← hsplit.2, ← matchHere_iff] at hr2
    rw [← matchHere_iff] at hr
    rw [hr] at hr2
    exact hr2.symm

theorem matchesAt_append (cs ds extra : List Char) (h : MatchesAt cs ds) :
    MatchesAt (cs ++ extra) ds := by
  obtain ⟨post, hcs, hne, hd⟩ := h
  exact ⟨post ++ extra, by rw [hcs]; simp, hne, hd⟩

theorem firstMatchAfter_cut (pre ds post : List Char)
    (h : FirstMatchAfter (pre ++ rxLiteral ++ ds ++ ';' :: post) pre ds) :
    FirstMatchAfter (pre ++ rxLiteral ++ ds ++ [';']) pre ds := by
  obtain ⟨⟨rest, hb, hr⟩, hleft⟩ := h
  obtain ⟨post0, -, hne, hd⟩ := hr
  refine ⟨⟨rxLiteral ++ ds ++ [';'], by simp, [], rfl, hne, hd⟩, ?_⟩
  intro pre2 rest2 ds2 hb2 hr2
  refine hleft pre2 (rest2 ++ post) ds2 ?_ (matchesAt_append _ _ _ hr2)
  rw [← List.append_assoc, ← hb2]
  simp

/-! ## Lemmas on `Atoi` and `Connect` -/

theorem digitsValue_of_digits (ds : List Char) (acc : Nat)
    (h : ∀ c ∈ ds, c.isDigit = true) :
    digitsValue ds acc = some (ds.foldl (fun a c => 10 * a + (c.toNat - 48)) acc) := by
  induction ds generalizing acc with
  | nil => rfl
  | cons d ds ih =>
    have hd : d.isDigit = true := h d (List.mem_cons_self _ _)
    rw [digitsValue, if_pos hd, ih _ (fun c hc => h c (List.mem_cons_of_mem _ hc))]
    rfl

theorem Atoi_of_digits (ds : List Char) (hne : ds ≠ [])
    (h : ∀ c ∈ ds, c.isDigit = true) :
    Atoi ds = if (decimalValue ds : Int) > maxInt then (maxInt, some .range)
      else ((decimalValue ds : Int), none) := by
  cases ds with
  | nil => exact absurd rfl hne
  | cons d ds =>
    have hd : d.isDigit = true := h d (List.mem_cons_self _ _)
    have h1 : d ≠ '-' := by
      intro hc
      rw [hc] at hd
      exact absurd hd (by decide)
    have h2 : d ≠ '+' := by
      intro hc
      rw [hc] at hd
      exact absurd hd (by decide)
    rw [Atoi, if_neg h1, if_neg h2, parseMagnitude, digitsValue_of_digits _ _ h]
    rfl

theorem Connect_log (t : Transport) (log : List String) (host : String) :
    (Connect t log host).2 = log ++ ["http://" ++ host ++ ":7777/"] := by
  have hq := qry_log t log ("http://" ++ host ++ ":7777/")
  unfold Connect
  split
  · rename_i e l1 heq
    rw [heq] at hq
    exact hq
  · rename_i r l1 heq
    rw [heq] at hq
    split
    · exact hq
    · simp only
      split <;> exact hq

theorem Connect_of_noMatch (t : Transport) (log : List String) (host body : String)
    (hb : t log ("http://" ++ host ++ ":7777/") = .body body)
    (hf : findSubmatch body.toList = none) :
    (Connect t log host).1 = .panicked := by
  unfold Connect
  simp only [qry, hb, hf]

theorem Connect_of_firstMatch (t : Transport) (log : List String) (host body : String)
    (pre ds : List Char)
    (hb : t log ("http://" ++ host ++ ":7777/") = .body body)
    (hf : FirstMatchAfter body.toList pre ds) :
    (Connect t log host).1 =
      if decimalValue ds < 1 then .error (.errorString "cannot read sequence index")
      else .session { host := host, seq := min (decimalValue ds : Int) maxInt } := by
  have hfind := findSubmatch_of_firstMatch _ _ _ hf
  obtain ⟨⟨rest, -, post, -, hne, hd⟩, -⟩ := hf
  have hA := Atoi_of_digits ds hne hd
  unfold Connect
  simp only [qry, hb, hfind, hA]
  by_cases hbig : (decimalValue ds : Int) > maxInt
  · have h1 : ¬ decimalValue ds < 1 := by
      unfold maxInt at hbig
      omega
    have h3 : min (decimalValue ds : Int) maxInt = maxInt := min_eq_right (le_of_lt hbig)
    simp only [if_pos hbig, h1, h3, if_false]
    rfl
  · have h3 : min (decimalValue ds : Int) maxInt = decimalValue ds :=
      min_eq_left (not_lt.1 hbig)
    simp only [if_neg hbig, h3]
    by_cases h1 : decimalValue ds < 1
    · have : (decimalValue ds : Int) < 1 := by omega
      simp [h1, this]
    · have : ¬ (decimalValue ds : Int) < 1 := by omega
      simp [h1, this]

/-! ## `Send`: failures -/

/-- C1: a `Send` that the device rejects returns the response body as its
error, but it does not leave the sequence where it was: from sequence 10,
`Send("A")` answered `busy` returns the error `busy` and the sequence is 11
afterwards, since the loop has already incremented it. -/
theorem Send_rejected_keeps_increment :
    ((WKey.mk "h" 10).Send (always "busy") "A" []).err = some (.errorString "busy")
      ∧ (GoError.errorString "busy").Error = "busy"
      ∧ ((WKey.mk "h" 10).Send (always "busy") "A" []).k.seq = 11 := by
  decide

/-- C2: a `Send` whose request fails returns the transport error, but it does
not leave the sequence where it was: from sequence 10, `Send("A")` on an
unreachable host returns that error and the sequence is 11 afterwards. -/
theorem Send_failed_keeps_increment :
    ((WKey.mk "h" 10).Send (unreachable "no route to host") "A" []).err
        = some (.net "no route to host")
      ∧ ((WKey.mk "h" 10).Send (unreachable "no route to host") "A" []).k.seq = 11 := by
  decide

/-! ## `Send`: the request and the accepted case -/

/-- C3 as stated fails at the top of the `int` range: from sequence `2^63 - 1`,
which `Connect` returns when the device reports it, an accepted `Send("A")`
leaves the sequence at `-2^63`, not at `2^63`. -/
theorem Send_ok_overflow_counterexample :
    (Connect (always "seqConfirmed = 9223372036854775807;") [] "h").1
        = .session (WKey.mk "h" 9223372036854775807)
      ∧ ((WKey.mk "h" 9223372036854775807).Send (always "ok") "A" []).err = none
      ∧ ((WKey.mk "h" 9223372036854775807).Send (always "ok") "A" []).k.seq
        = -9223372036854775808
      ∧ ((WKey.mk "h" 9223372036854775807).Send (always "ok") "A" []).k.seq
        ≠ 9223372036854775807 + ("A".length : Int) := by
  decide

/-- C3 (amended): for a session at sequence `S` and a string of `n` code
points such that `S + n - 1` and `S + n` are representable as `int`, `Send`
issues exactly one request, the sequence value in its query is `S + n - 1`,
and if the response is `ok` it returns no error and the sequence becomes
`S + n`. -/
theorem Send_ok_within_int (t : Transport) (k : WKey) (s : String) (log : List String)
    (hS : isInt k.seq) (hlo : isInt (k.seq + s.length - 1)) (hhi : isInt (k.seq + s.length)) :
    ∃ payload : String,
      (k.Send t s log).log = log ++ ["http://" ++ k.host ++ ":7777/key?"
          ++ decimal (k.seq + s.length - 1) ++ "," ++ payload]
      ∧ (t log ("http://" ++ k.host ++ ":7777/key?"
            ++ decimal (k.seq + s.length - 1) ++ "," ++ payload) = .body "ok" →
          (k.Send t s log).err = none ∧ (k.Send t s log).k.seq = k.seq + s.length) := by
  refine ⟨reversedFragments s.toList, ?_, ?_⟩
  · have h := (Send_request t k s log hS).1
    rw [wrapInt_of_isInt hlo] at h
    exact h
  · intro hok
    rw [← wrapInt_of_isInt hlo] at hok
    have he := Send_err_body t k s log hS "ok" hok
    have hk := (Send_request t k s log hS).2
    rw [wrapInt_of_isInt hhi] at hk
    rw [he, hk]
    exact ⟨rfl, rfl⟩

/-- C3 (amended), at sequence 10 with the string `AB` and a device that
answers `ok`. -/
theorem Send_ok_within_int_witness :
    ∃ payload : String,
      ((WKey.mk "h" 10).Send (always "ok") "AB" []).log
          = [] ++ ["http://" ++ "h" ++ ":7777/key?" ++ decimal (10 + ("AB".length : Int) - 1)
            ++ "," ++ payload]
      ∧ (always "ok" [] ("http://" ++ "h" ++ ":7777/key?"
            ++ decimal (10 + ("AB".length : Int) - 1) ++ "," ++ payload) = .body "ok" →
          ((WKey.mk "h" 10).Send (always "ok") "AB" []).err = none
            ∧ ((WKey.mk "h" 10).Send (always "ok") "AB" []).k.seq
              = 10 + ("AB".length : Int)) :=
  Send_ok_within_int (always "ok") (WKey.mk "h" 10) "AB" [] (by decide) (by decide) (by decide)

/-- C4 as stated fails when `S + n - 1` is not representable: from sequence
`2^63 - 1`, `Send("AB")` requests `key?-9223372036854775808,C66,C65,`, not
`key?9223372036854775808,C66,C65,`. -/
theorem Send_url_overflow_counterexample :
    (Connect (always "seqConfirmed = 9223372036854775807;") [] "h").1
        = .session (WKey.mk "h" 9223372036854775807)
      ∧ ((WKey.mk "h" 9223372036854775807).Send (always "ok") "AB" []).log
        = ["http://h:7777/key?-9223372036854775808,C66,C65,"]
      ∧ ((WKey.mk "h" 9223372036854775807).Send (always "ok") "AB" []).log
        ≠ ["http://h:7777/key?" ++ decimal (9223372036854775807 + ("AB".length : Int) - 1)
            ++ "," ++ reversedFragments "AB".toList] := by
  decide

/-- C4 (amended): for every host `h`, sequence `S` and string `s` of `n` code
points such that `S + n - 1` is representable as `int`, the URL requested by
`Send` is exactly `http://h:7777/key?` followed by the decimal of `S + n - 1`,
a comma, and the fragments `C<code point>,` of the characters in reverse
input order. -/
theorem Send_url_within_int (t : Transport) (h : String) (S : Int) (s : String)
    (log : List String) (hS : isInt S) (hq : isInt (S + s.length - 1)) :
    ((WKey.mk h S).Send t s log).log = log ++ ["http://" ++ h ++ ":7777/key?"
      ++ decimal (S + s.length - 1) ++ "," ++ reversedFragments s.toList] := by
  have hr := (Send_request t (WKey.mk h S) s log hS).1
  rw [wrapInt_of_isInt hq] at hr
  exact hr

/-- C4 (amended), the example of the protocol: from sequence 10, `Send("AB")`
requests `key?11,C66,C65,`. -/
theorem Send_url_within_int_witness :
    ((WKey.mk "h" 10).Send (always "ok") "AB" []).log = ["http://h:7777/key?11,C66,C65,"] :=
  (Send_url_within_int (always "ok") "h" 10 "AB" [] (by decide) (by decide)).trans (by decide)

/-! ## `Connect` -/

theorem Connect_panics_without_pattern (t : Transport) (log : List String)
    (host body : String)
    (hb : t log ("http://" ++ host ++ ":7777/") = .body body)
    (hno : ∀ ds, ¬ Occurs body.toList ds) :
    (Connect t log host).1 = .panicked := by
  apply Connect_of_noMatch t log host body hb
  cases hf : findSubmatch body.toList with
  | none => rfl
  | some ds =>
    obtain ⟨pre, ⟨rest, hsplit, hr⟩, -⟩ := findSubmatch_firstMatch _ _ hf
    exact absurd ⟨pre, rest, hsplit, hr⟩ (hno ds)

/-- C5: on a status page without the pattern `Connect` does not return an
error: for the body `<html>WiFi Keyboard</html>`, in which
`seqConfirmed = <digits>;` does not occur, indexing the empty match panics. -/
theorem Connect_without_pattern_panics :
    (∀ ds, ¬ Occurs "<html>WiFi Keyboard</html>".toList ds)
      ∧ (Connect (always "<html>WiFi Keyboard</html>") [] "h").1 = .panicked :=
  ⟨fun ds => findSubmatch_none _ (by decide) ds, by decide⟩

/-- C6 as stated fails in two ways: a body that contains `seqConfirmed = 5;`
after `seqConfirmed = 0;` makes `Connect` fail, and a body with
`seqConfirmed = 9223372036854775808;` gives a session at `2^63 - 1`. -/
theorem Connect_occurrence_counterexample :
    Occurs "seqConfirmed = 0;seqConfirmed = 5;".toList "5".toList
      ∧ 1 ≤ decimalValue "5".toList
      ∧ (Connect (always "seqConfirmed = 0;seqConfirmed = 5;") [] "h").1
        = .error (.errorString "cannot read sequence index")
      ∧ Occurs "seqConfirmed = 9223372036854775808;".toList "9223372036854775808".toList
      ∧ decimalValue "9223372036854775808".toList = 9223372036854775808
      ∧ (Connect (always "seqConfirmed = 9223372036854775808;") [] "h").1
        = .session { host := "h", seq := 9223372036854775807 } :=
  ⟨⟨"seqConfirmed = 0;".toList, "seqConfirmed = 5;".toList, by decide,
      [], by decide, by decide, by decide⟩,
    by decide, by decide,
    ⟨[], "seqConfirmed = 9223372036854775808;".toList, by decide,
      [], by decide, by decide, by decide⟩,
    by decide, by decide⟩

/-- C6 (amended): for every host `h` and every status-page body whose leftmost
occurrence of `seqConfirmed = <digits>;` carries a decimal literal `K` with
`1 ≤ K ≤ 2^63 - 1`, `Connect(h)` succeeds and returns a session whose address
is `h` and whose sequence equals `K`. -/
theorem Connect_firstMatch_in_range (t : Transport) (log : List String)
    (host body : String) (ds : List Char)
    (hb : t log ("http://" ++ host ++ ":7777/") = .body body)
    (hf : ∃ pre, FirstMatchAfter body.toList pre ds)
    (h1 : 1 ≤ decimalValue ds) (h2 : (decimalValue ds : Int) ≤ maxInt) :
    (Connect t log host).1 = .session { host := host, seq := decimalValue ds } := by
  obtain ⟨pre, hpre⟩ := hf
  rw [Connect_of_firstMatch t log host body pre ds hb hpre, if_neg (by omega),
    min_eq_left h2]

/-- C6 (amended), on a page in which `seqConfirmed = 12;` is the only
occurrence. -/
theorem Connect_firstMatch_in_range_witness :
    (Connect (always "<script>var seqConfirmed = 12;</script>") [] "192.168.0.7").1
      = .session { host := "192.168.0.7", seq := 12 } :=
  Connect_firstMatch_in_range (always "<script>var seqConfirmed = 12;</script>") []
    "192.168.0.7" "<script>var seqConfirmed = 12;</script>" "12".toList rfl
    (findSubmatch_firstMatch _ _ (by decide)) (by decide) (by decide)

/-- C7: for every status-page body whose extracted sequence number (the number
of the leftmost occurrence of the pattern) is less than 1, `Connect` fails with
the error `cannot read sequence index` and returns no session. -/
theorem Connect_sequence_below_one (t : Transport) (log : List String)
    (host body : String) (ds : List Char)
    (hb : t log ("http://" ++ host ++ ":7777/") = .body body)
    (hf : ∃ pre, FirstMatchAfter body.toList pre ds)
    (h0 : decimalValue ds < 1) :
    (Connect t log host).1 = .error (.errorString "cannot read sequence index") := by
  obtain ⟨pre, hpre⟩ := hf
  rw [Connect_of_firstMatch t log host body pre ds hb hpre, if_pos h0]

/-- C7, on the page `seqConfirmed = 0;`. -/
theorem Connect_sequence_below_one_witness :
    (Connect (always "seqConfirmed = 0;") [] "h").1
      = .error (.errorString "cannot read sequence index") :=
  Connect_sequence_below_one (always "seqConfirmed = 0;") [] "h" "seqConfirmed = 0;"
    "0".toList rfl (findSubmatch_firstMatch _ _ (by decide)) (by decide)

/-- C8 as stated fails: the body `seqConfirmed = 3;seqConfirmed = 5;` contains
the pattern twice with different numbers, and `Connect` returns a session at
sequence 3. -/
theorem Connect_ambiguous_counterexample :
    Occurs "seqConfirmed = 3;seqConfirmed = 5;".toList "3".toList
      ∧ Occurs "seqConfirmed = 3;seqConfirmed = 5;".toList "5".toList
      ∧ (Connect (always "seqConfirmed = 3;seqConfirmed = 5;") [] "h").1
        = .session { host := "h", seq := 3 } :=
  ⟨⟨[], "seqConfirmed = 3;seqConfirmed = 5;".toList, by decide,
      "seqConfirmed = 5;".toList, by decide, by decide, by decide⟩,
    ⟨"seqConfirmed = 3;".toList, "seqConfirmed = 5;".toList, by decide,
      [], by decide, by decide, by decide⟩,
    by decide⟩

/-- C8 (amended): the extraction takes the leftmost occurrence of the pattern
and ignores what follows it: `Connect` gives the same result for a body as for
that body cut off right after its leftmost occurrence, so when the leftmost
number `K` is at least 1 it returns a session at `min K (2^63 - 1)`, whatever
other occurrences follow. -/
theorem Connect_ignores_later_text (t1 t2 : Transport) (log : List String)
    (host body cut : String) (pre ds post : List Char)
    (hbody : body.toList = pre ++ rxLiteral ++ ds ++ ';' :: post)
    (hcut : cut.toList = pre ++ rxLiteral ++ ds ++ [';'])
    (hf : FirstMatchAfter body.toList pre ds)
    (h1 : t1 log ("http://" ++ host ++ ":7777/") = .body body)
    (h2 : t2 log ("http://" ++ host ++ ":7777/") = .body cut) :
    (Connect t1 log host).1 = (Connect t2 log host).1
      ∧ (1 ≤ decimalValue ds →
          (Connect t1 log host).1
            = .session { host := host, seq := min (decimalValue ds : Int) maxInt }) := by
  have hfc : FirstMatchAfter cut.toList pre ds := by
    rw [hcut]
    rw [hbody] at hf
    exact firstMatchAfter_cut pre ds post hf
  rw [Connect_of_firstMatch t1 log host body pre ds h1 hf,
    Connect_of_firstMatch t2 log host cut pre ds h2 hfc]
  refine ⟨rfl, fun hK => ?_⟩
  rw [if_neg (by omega)]

/-- C8 (amended), on the page `seqConfirmed = 3;seqConfirmed = 5;`, whose
leftmost occurrence ends after `seqConfirmed = 3;`. -/
theorem Connect_ignores_later_text_witness :
    (Connect (always "seqConfirmed = 3;seqConfirmed = 5;") [] "h").1
        = (Connect (always "seqConfirmed = 3;") [] "h").1
      ∧ (1 ≤ decimalValue "3".toList →
          (Connect (always "seqConfirmed = 3;seqConfirmed = 5;") [] "h").1
            = .session { host := "h", seq := min (decimalValue "3".toList : Int) maxInt }) :=
  Connect_ignores_later_text (always "seqConfirmed = 3;seqConfirmed = 5;")
    (always "seqConfirmed = 3;") [] "h" "seqConfirmed = 3;seqConfirmed = 5;"
    "seqConfirmed = 3;" [] "3".toList "seqConfirmed = 5;".toList (by decide) (by decide)
    ⟨⟨"seqConfirmed = 3;seqConfirmed = 5;".toList, rfl,
        "seqConfirmed = 5;".toList, by decide, by decide, by decide⟩,
      fun _ _ _ _ _ => Nat.zero_le _⟩
    rfl rfl

/-! ## `KeyDown` and `KeyUp` -/

/-- C9 as stated fails at the top of the `int` range: from sequence `2^63 - 1`,
which `Connect` returns when the device reports it, an accepted `KeyDown`
leaves the sequence at `-2^63`, not at `2^63`. -/
theorem KeyDown_ok_overflow_counterexample :
    (Connect (always "seqConfirmed = 9223372036854775807;") [] "h").1
        = .session (WKey.mk "h" 9223372036854775807)
      ∧ ((WKey.mk "h" 9223372036854775807).KeyDown (always "ok") RETURN []).log
        = ["http://h:7777/key?9223372036854775807,D13,"]
      ∧ ((WKey.mk "h" 9223372036854775807).KeyDown (always "ok") RETURN []).err = none
      ∧ ((WKey.mk "h" 9223372036854775807).KeyDown (always "ok") RETURN []).k.seq
        = -9223372036854775808
      ∧ ((WKey.mk "h" 9223372036854775807).KeyDown (always "ok") RETURN []).k.seq
        ≠ 9223372036854775807 + 1 := by
  decide

/-- C9 (amended): for every host `h`, sequence `S` below `2^63 - 1` and every
integer key code `c`, `KeyDown(c)` issues exactly one request, with URL
`http://h:7777/key?<S>,D<c>,`, and `KeyUp(c)` the same with `U` in place of
`D`; if the response is `ok` the call returns no error and the sequence
becomes `S + 1`. -/
theorem KeyDown_KeyUp_ok_within_int (t : Transport) (h : String) (S c : Int)
    (log : List String) (hS : isInt S) (hlt : S < maxInt) :
    ((WKey.mk h S).KeyDown t c log).log
        = log ++ ["http://" ++ h ++ ":7777/key?" ++ decimal S ++ ",D" ++ decimal c ++ ","]
      ∧ ((WKey.mk h S).KeyUp t c log).log
        = log ++ ["http://" ++ h ++ ":7777/key?" ++ decimal S ++ ",U" ++ decimal c ++ ","]
      ∧ (t log ("http://" ++ h ++ ":7777/key?" ++ decimal S ++ ",D" ++ decimal c ++ ",")
            = .body "ok" →
          ((WKey.mk h S).KeyDown t c log).err = none
            ∧ ((WKey.mk h S).KeyDown t c log).k.seq = S + 1)
      ∧ (t log ("http://" ++ h ++ ":7777/key?" ++ decimal S ++ ",U" ++ decimal c ++ ",")
            = .body "ok" →
          ((WKey.mk h S).KeyUp t c log).err = none
            ∧ ((WKey.mk h S).KeyUp t c log).k.seq = S + 1) := by
  have hS1 : isInt (S + 1) := by
    unfold isInt minInt maxInt at *
    omega
  refine ⟨KeyDown_log t (WKey.mk h S) c log, KeyUp_log t (WKey.mk h S) c log, ?_, ?_⟩
  · intro hok
    have hb := KeyDown_body t (WKey.mk h S) c log "ok" hok
    rw [hb.1, hb.2]
    simp only [if_true, wrapInt_of_isInt hS1, and_self]
  · intro hok
    have hb := KeyUp_body t (WKey.mk h S) c log "ok" hok
    rw [hb.1, hb.2]
    simp only [if_true, wrapInt_of_isInt hS1, and_self]

/-- C9 (amended), at sequence 10 with the negative key code -5, which is none
of the known constants. -/
theorem KeyDown_KeyUp_ok_within_int_witness :
    ((WKey.mk "h" 10).KeyDown (always "ok") (-5) []).log = ["http://h:7777/key?10,D-5,"]
      ∧ ((WKey.mk "h" 10).KeyUp (always "ok") (-5) []).log = ["http://h:7777/key?10,U-5,"]
      ∧ ((WKey.mk "h" 10).KeyDown (always "ok") (-5) []).err = none
      ∧ ((WKey.mk "h" 10).KeyDown (always "ok") (-5) []).k.seq = 11
      ∧ ((WKey.mk "h" 10).KeyUp (always "ok") (-5) []).err = none
      ∧ ((WKey.mk "h" 10).KeyUp (always "ok") (-5) []).k.seq = 11 :=
  have w := KeyDown_KeyUp_ok_within_int (always "ok") "h" 10 (-5) [] (by decide) (by decide)
  ⟨w.1.trans (by decide), w.2.1.trans (by decide), (w.2.2.1 rfl).1, (w.2.2.1 rfl).2,
    (w.2.2.2 rfl).1, (w.2.2.2 rfl).2⟩

/-- C10: for every session at sequence `S` and key code `c`: if the transport
answers `KeyDown(c)` or `KeyUp(c)` with a body other than `ok`, the call
returns an error whose message is exactly that body and the sequence remains
`S`; if the request itself fails, the call returns that error and the sequence
remains `S`. -/
theorem KeyDown_KeyUp_failure_keeps_seq (t : Transport) (k : WKey) (c : Int)
    (log : List String) :
    (∀ body, body ≠ "ok" →
        t log ("http://" ++ k.host ++ ":7777/key?" ++ decimal k.seq ++ ",D" ++ decimal c
          ++ ",") = .body body →
        (∃ e, (k.KeyDown t c log).err = some e ∧ e.Error = body)
          ∧ (k.KeyDown t c log).k.seq = k.seq)
      ∧ (∀ body, body ≠ "ok" →
        t log ("http://" ++ k.host ++ ":7777/key?" ++ decimal k.seq ++ ",U" ++ decimal c
          ++ ",") = .body body →
        (∃ e, (k.KeyUp t c log).err = some e ∧ e.Error = body)
          ∧ (k.KeyUp t c log).k.seq = k.seq)
      ∧ (∀ err,
        (t log ("http://" ++ k.host ++ ":7777/key?" ++ decimal k.seq ++ ",D" ++ decimal c
            ++ ",") = .getFailed err
          ∨ t log ("http://" ++ k.host ++ ":7777/key?" ++ decimal k.seq ++ ",D" ++ decimal c
            ++ ",") = .readFailed err) →
        (k.KeyDown t c log).err = some err ∧ (k.KeyDown t c log).k.seq = k.seq)
      ∧ (∀ err,
        (t log ("http://" ++ k.host ++ ":7777/key?" ++ decimal k.seq ++ ",U" ++ decimal c
            ++ ",") = .getFailed err
          ∨ t log ("http://" ++ k.host ++ ":7777/key?" ++ decimal k.seq ++ ",U" ++ decimal c
            ++ ",") = .readFailed err) →
        (k.KeyUp t c log).err = some err ∧ (k.KeyUp t c log).k.seq = k.seq) := by
  refine ⟨?_, ?_, ?_, ?_⟩
  · intro body hne hb
    have h := KeyDown_body t k c log body hb
    rw [h.1, h.2, if_neg hne, if_neg hne]
    exact ⟨⟨_, rfl, rfl⟩, rfl⟩
  · intro body hne hb
    have h := KeyUp_body t k c log body hb
    rw [h.1, h.2, if_neg hne, if_neg hne]
    exact ⟨⟨_, rfl, rfl⟩, rfl⟩
  · intro err hb
    have h := KeyDown_failed t k c log err hb
    rw [h.1, h.2]
    exact ⟨rfl, rfl⟩
  · intro err hb
    have h := KeyUp_failed t k c log err hb
    rw [h.1, h.2]
    exact ⟨rfl, rfl⟩

/-- C10, at sequence 10 with the key code `RETURN`: a device that answers
`busy`, and a host that cannot be reached. -/
theorem KeyDown_KeyUp_failure_keeps_seq_witness :
    ((∃ e, ((WKey.mk "h" 10).KeyDown (always "busy") RETURN []).err = some e
          ∧ e.Error = "busy")
        ∧ ((WKey.mk "h" 10).KeyDown (always "busy") RETURN []).k.seq = 10)
      ∧ ((∃ e, ((WKey.mk "h" 10).KeyUp (always "busy") RETURN []).err = some e
          ∧ e.Error = "busy")
        ∧ ((WKey.mk "h" 10).KeyUp (always "busy") RETURN []).k.seq = 10)
      ∧ (((WKey.mk "h" 10).KeyDown (unreachable "no route to host") RETURN []).err
          = some (.net "no route to host")
        ∧ ((WKey.mk "h" 10).KeyDown (unreachable "no route to host") RETURN []).k.seq = 10)
      ∧ (((WKey.mk "h" 10).KeyUp (unreachable "no route to host") RETURN []).err
          = some (.net "no route to host")
        ∧ ((WKey.mk "h" 10).KeyUp (unreachable "no route to host") RETURN []).k.seq = 10) :=
  ⟨(KeyDown_KeyUp_failure_keeps_seq (always "busy") (WKey.mk "h" 10) RETURN []).1
      "busy" (by decide) rfl,
    (KeyDown_KeyUp_failure_keeps_seq (always "busy") (WKey.mk "h" 10) RETURN []).2.1
      "busy" (by decide) rfl,
    (KeyDown_KeyUp_failure_keeps_seq (unreachable "no route to host") (WKey.mk "h" 10)
      RETURN []).2.2.1 (.net "no route to host") (Or.inl rfl),
    (KeyDown_KeyUp_failure_keeps_seq (unreachable "no route to host") (WKey.mk "h" 10)
      RETURN []).2.2.2 (.net "no route to host") (Or.inl rfl)⟩

/-! ## Lemmas on the command URL and on unconditional behaviour -/

theorem commandUrl_down (h : String) (S c : Int) :
    "http://" ++ h ++ ":7777/key?" ++ decimal S ++ ",D" ++ decimal c ++ ","
      = commandUrl h S ("D" ++ decimal c ++ ",") := by
  unfold commandUrl
  rw [key_url_assoc]
  rfl

theorem commandUrl_up (h : String) (S c : Int) :
    "http://" ++ h ++ ":7777/key?" ++ decimal S ++ ",U" ++ decimal c ++ ","
      = commandUrl h S ("U" ++ decimal c ++ ",") := by
  unfold commandUrl
  rw [key_url_assoc]
  rfl

theorem commandUrl_targets (h : String) (S : Int) (payload : String) :
    ∃ rest, commandUrl h S payload = "http://" ++ h ++ ":7777/" ++ rest := by
  refine ⟨"key?" ++ decimal S ++ "," ++ payload, ?_⟩
  unfold commandUrl
  have e : ":7777/key?" = ":7777/" ++ "key?" := by decide
  rw [e]
  simp only [String.append_assoc]

theorem KeyDown_log_cmd (t : Transport) (k : WKey) (c : Int) (log : List String) :
    (k.KeyDown t c log).log = log ++ [commandUrl k.host k.seq ("D" ++ decimal c ++ ",")] := by
  rw [KeyDown_log, commandUrl_down]

theorem KeyUp_log_cmd (t : Transport) (k : WKey) (c : Int) (log : List String) :
    (k.KeyUp t c log).log = log ++ [commandUrl k.host k.seq ("U" ++ decimal c ++ ",")] := by
  rw [KeyUp_log, commandUrl_up]

theorem KeyDown_k_of_ok (t : Transport) (k : WKey) (c : Int) (log : List String)
    (h : t log (commandUrl k.host k.seq ("D" ++ decimal c ++ ",")) = .body "ok") :
    (k.KeyDown t c log).k = { host := k.host, seq := wrapInt (k.seq + 1) } := by
  rw [← commandUrl_down] at h
  rw [(KeyDown_body t k c log "ok" h).2, if_pos rfl]

theorem KeyUp_k_of_ok (t : Transport) (k : WKey) (c : Int) (log : List String)
    (h : t log (commandUrl k.host k.seq ("U" ++ decimal c ++ ",")) = .body "ok") :
    (k.KeyUp t c log).k = { host := k.host, seq := wrapInt (k.seq + 1) } := by
  rw [← commandUrl_up] at h
  rw [(KeyUp_body t k c log "ok" h).2, if_pos rfl]

theorem KeyDown_k_of_not_ok (t : Transport) (k : WKey) (c : Int) (log : List String)
    (h : t log (commandUrl k.host k.seq ("D" ++ decimal c ++ ",")) ≠ .body "ok") :
    (k.KeyDown t c log).k = k := by
  rw [← commandUrl_down] at h
  cases ho : t log ("http://" ++ k.host ++ ":7777/key?" ++ decimal k.seq ++ ",D"
      ++ decimal c ++ ",") with
  | getFailed err => exact (KeyDown_failed t k c log err (Or.inl ho)).2
  | readFailed err => exact (KeyDown_failed t k c log err (Or.inr ho)).2
  | body b =>
    have hne : b ≠ "ok" := fun hb => h (hb ▸ ho)
    rw [(KeyDown_body t k c log b ho).2, if_neg hne]

theorem KeyUp_k_of_not_ok (t : Transport) (k : WKey) (c : Int) (log : List String)
    (h : t log (commandUrl k.host k.seq ("U" ++ decimal c ++ ",")) ≠ .body "ok") :
    (k.KeyUp t c log).k = k := by
  rw [← commandUrl_up] at h
  cases ho : t log ("http://" ++ k.host ++ ":7777/key?" ++ decimal k.seq ++ ",U"
      ++ decimal c ++ ",") with
  | getFailed err => exact (KeyUp_failed t k c log err (Or.inl ho)).2
  | readFailed err => exact (KeyUp_failed t k c log err (Or.inr ho)).2
  | body b =>
    have hne : b ≠ "ok" := fun hb => h (hb ▸ ho)
    rw [(KeyUp_body t k c log b ho).2, if_neg hne]

theorem KeyDown_k_cases (t : Transport) (k : WKey) (c : Int) (log : List String) :
    (k.KeyDown t c log).k = k
      ∨ (k.KeyDown t c log).k = { host := k.host, seq := wrapInt (k.seq + 1) } := by
  by_cases h : t log (commandUrl k.host k.seq ("D" ++ decimal c ++ ",")) = .body "ok"
  · exact Or.inr (KeyDown_k_of_ok t k c log h)
  · exact Or.inl (KeyDown_k_of_not_ok t k c log h)

theorem KeyUp_k_cases (t : Transport) (k : WKey) (c : Int) (log : List String) :
    (k.KeyUp t c log).k = k
      ∨ (k.KeyUp t c log).k = { host := k.host, seq := wrapInt (k.seq + 1) } := by
  by_cases h : t log (commandUrl k.host k.seq ("U" ++ decimal c ++ ",")) = .body "ok"
  · exact Or.inr (KeyUp_k_of_ok t k c log h)
  · exact Or.inl (KeyUp_k_of_not_ok t k c log h)

theorem KeyDown_host (t : Transport) (k : WKey) (c : Int) (log : List String) :
    (k.KeyDown t c log).k.host = k.host := by
  rcases KeyDown_k_cases t k c log with h | h <;> rw [h]

theorem KeyUp_host (t : Transport) (k : WKey) (c : Int) (log : List String) :
    (k.KeyUp t c log).k.host = k.host := by
  rcases KeyUp_k_cases t k c log with h | h <;> rw [h]

theorem Key_log (t : Transport) (k : WKey) (c : Int) (log : List String) :
    (k.Key t c log).2 = log ++ [commandUrl k.host k.seq ("D" ++ decimal c ++ ","),
      commandUrl k.host (k.KeyDown t c log).k.seq ("U" ++ decimal c ++ ",")] := by
  unfold WKey.Key
  simp only [KeyUp_log_cmd, KeyDown_log_cmd, KeyDown_host, List.append_assoc,
    List.singleton_append]

theorem Key_host (t : Transport) (k : WKey) (c : Int) (log : List String) :
    (k.Key t c log).1.host = k.host := by
  unfold WKey.Key
  simp only [KeyUp_host, KeyDown_host]

theorem Send_raw (t : Transport) (k : WKey) (s : String) (log : List String) :
    (k.Send t s log).log = log ++ [commandUrl k.host
        (wrapInt ((sendLoop s.toList ("", k.seq)).2 - 1)) (sendLoop s.toList ("", k.seq)).1]
      ∧ (k.Send t s log).k = { host := k.host, seq := (sendLoop s.toList ("", k.seq)).2 } := by
  have hq := qry_log t log (commandUrl k.host
        (wrapInt ((sendLoop s.toList ("", k.seq)).2 - 1)) (sendLoop s.toList ("", k.seq)).1)
  unfold commandUrl at hq ⊢
  unfold WKey.Send
  simp only
  split
  · rename_i e l1 heq
    rw [heq] at hq
    exact ⟨hq, rfl⟩
  · rename_i r l1 heq
    rw [heq] at hq
    split <;> exact ⟨hq, rfl⟩

/-! ## Repeating a failed command -/

theorem KeyDown_retry_same_url (t : Transport) (k : WKey) (c : Int) (log : List String)
    (h : t log (commandUrl k.host k.seq ("D" ++ decimal c ++ ",")) ≠ .body "ok") :
    ((k.KeyDown t c log).k.KeyDown t c (k.KeyDown t c log).log).log
      = log ++ [commandUrl k.host k.seq ("D" ++ decimal c ++ ","),
          commandUrl k.host k.seq ("D" ++ decimal c ++ ",")] := by
  rw [KeyDown_log_cmd, KeyDown_log_cmd, KeyDown_k_of_not_ok t k c log h]
  simp only [List.append_assoc, List.singleton_append]

theorem KeyUp_retry_same_url (t : Transport) (k : WKey) (c : Int) (log : List String)
    (h : t log (commandUrl k.host k.seq ("U" ++ decimal c ++ ",")) ≠ .body "ok") :
    ((k.KeyUp t c log).k.KeyUp t c (k.KeyUp t c log).log).log
      = log ++ [commandUrl k.host k.seq ("U" ++ decimal c ++ ","),
          commandUrl k.host k.seq ("U" ++ decimal c ++ ",")] := by
  rw [KeyUp_log_cmd, KeyUp_log_cmd, KeyUp_k_of_not_ok t k c log h]
  simp only [List.append_assoc, List.singleton_append]

/-- C11: a failed `Send` is not repeated with the same request.  From sequence
10, `Send("A")` answered `busy` requests `key?10,C65,`; the identical
`Send("A")` on the session it leaves requests `key?11,C65,`, and the same
happens after a transport error. -/
theorem Send_retry_changes_url :
    ((WKey.mk "h" 10).Send (always "busy") "A" []).err = some (.errorString "busy")
      ∧ ((WKey.mk "h" 10).Send (always "busy") "A" []).log = ["http://h:7777/key?10,C65,"]
      ∧ (((WKey.mk "h" 10).Send (always "busy") "A" []).k.Send (always "busy") "A"
          ((WKey.mk "h" 10).Send (always "busy") "A" []).log).log
        = ["http://h:7777/key?10,C65,", "http://h:7777/key?11,C65,"]
      ∧ ((WKey.mk "h" 10).Send (unreachable "no route to host") "A" []).err
        = some (.net "no route to host")
      ∧ (((WKey.mk "h" 10).Send (unreachable "no route to host") "A" []).k.Send
          (unreachable "no route to host") "A"
          ((WKey.mk "h" 10).Send (unreachable "no route to host") "A" []).log).log
        = ["http://h:7777/key?10,C65,", "http://h:7777/key?11,C65,"] := by
  decide

/-! ## `Key` -/

/-- C12: for every session, key code `c` and transport, `Key(c)` issues exactly
two requests: the first carries the payload `D<c>,` at the current sequence,
the second the payload `U<c>,` at the sequence `KeyDown` left (unchanged, or
incremented when the first request was accepted); the second is issued
whatever the outcome of the first. -/
theorem Key_two_requests (t : Transport) (k : WKey) (c : Int) (log : List String) :
    (k.Key t c log).2
        = log ++ ["http://" ++ k.host ++ ":7777/key?" ++ decimal k.seq ++ ",D" ++ decimal c
            ++ ",",
          "http://" ++ k.host ++ ":7777/key?" ++ decimal (k.KeyDown t c log).k.seq ++ ",U"
            ++ decimal c ++ ","]
      ∧ ((k.KeyDown t c log).k.seq = k.seq
          ∨ (k.KeyDown t c log).k.seq = wrapInt (k.seq + 1)) := by
  refine ⟨?_, ?_⟩
  · rw [Key_log, commandUrl_down, commandUrl_up]
  · rcases KeyDown_k_cases t k c log with h | h <;> rw [h]
    · exact Or.inl rfl
    · exact Or.inr rfl

/-! ## `Clear` -/

theorem wrapInt_succ (S : Int) (n : Int) (hS : isInt S) (h0 : 0 ≤ n) (h : S + n + 1 ≤ maxInt) :
    wrapInt (S + n + 1) = S + (n + 1) := by
  unfold isInt minInt maxInt at *
  unfold wrapInt
  omega

theorem KeyDown_k_allok (t : Transport) (hok : ∀ l u, t l u = .body "ok")
    (k : WKey) (c : Int) (log : List String) :
    (k.KeyDown t c log).k = { host := k.host, seq := wrapInt (k.seq + 1) } :=
  KeyDown_k_of_ok t k c log (hok _ _)

theorem KeyUp_k_allok (t : Transport) (hok : ∀ l u, t l u = .body "ok")
    (k : WKey) (c : Int) (log : List String) :
    (k.KeyUp t c log).k = { host := k.host, seq := wrapInt (k.seq + 1) } :=
  KeyUp_k_of_ok t k c log (hok _ _)

theorem Clear_log (t : Transport) (k : WKey) (log : List String) :
    ∃ s2 s3 s4 s5 s6 s7 s8 : Int,
      (k.Clear t log).2 = log ++ [
        commandUrl k.host k.seq ("D" ++ decimal END ++ ","),
        commandUrl k.host s2 ("U" ++ decimal END ++ ","),
        commandUrl k.host s3 ("D" ++ decimal SHIFT ++ ","),
        commandUrl k.host s4 ("D" ++ decimal BEGIN ++ ","),
        commandUrl k.host s5 ("U" ++ decimal BEGIN ++ ","),
        commandUrl k.host s6 ("U" ++ decimal SHIFT ++ ","),
        commandUrl k.host s7 ("D" ++ decimal DEL ++ ","),
        commandUrl k.host s8 ("U" ++ decimal DEL ++ ",")] := by
  unfold WKey.Clear
  simp only [Key_log, KeyDown_log_cmd, KeyUp_log_cmd, Key_host, KeyDown_host, KeyUp_host,
    List.append_assoc, List.singleton_append, List.cons_append, List.nil_append]
  exact ⟨_, _, _, _, _, _, _, rfl⟩

theorem Clear_allok (t : Transport) (hok : ∀ l u, t l u = .body "ok")
    (k : WKey) (log : List String) (hS : isInt k.seq) (h8 : k.seq + 8 ≤ maxInt) :
    (k.Clear t log).2 = log ++ [
        commandUrl k.host k.seq ("D" ++ decimal END ++ ","),
        commandUrl k.host (k.seq + 1) ("U" ++ decimal END ++ ","),
        commandUrl k.host (k.seq + 2) ("D" ++ decimal SHIFT ++ ","),
        commandUrl k.host (k.seq + 3) ("D" ++ decimal BEGIN ++ ","),
        commandUrl k.host (k.seq + 4) ("U" ++ decimal BEGIN ++ ","),
        commandUrl k.host (k.seq + 5) ("U" ++ decimal SHIFT ++ ","),
        commandUrl k.host (k.seq + 6) ("D" ++ decimal DEL ++ ","),
        commandUrl k.host (k.seq + 7) ("U" ++ decimal DEL ++ ",")]
      ∧ (k.Clear t log).1.seq = k.seq + 8 := by
  have e1 : wrapInt (k.seq + 1) = k.seq + 1 := by
    have := wrapInt_succ k.seq 0 hS (le_refl 0) (by unfold maxInt at *; omega)
    simpa using this
  have e2 : wrapInt (k.seq + 1 + 1) = k.seq + 2 :=
    wrapInt_succ k.seq 1 hS (by omega) (by unfold maxInt at *; omega)
  have e3 : wrapInt (k.seq + 2 + 1) = k.seq + 3 :=
    wrapInt_succ k.seq 2 hS (by omega) (by unfold maxInt at *; omega)
  have e4 : wrapInt (k.seq + 3 + 1) = k.seq + 4 :=
    wrapInt_succ k.seq 3 hS (by omega) (by unfold maxInt at *; omega)
  have e5 : wrapInt (k.seq + 4 + 1) = k.seq + 5 :=
    wrapInt_succ k.seq 4 hS (by omega) (by unfold maxInt at *; omega)
  have e6 : wrapInt (k.seq + 5 + 1) = k.seq + 6 :=
    wrapInt_succ k.seq 5 hS (by omega) (by unfold maxInt at *; omega)
  have e7 : wrapInt (k.seq + 6 + 1) = k.seq + 7 :=
    wrapInt_succ k.seq 6 hS (by omega) (by unfold maxInt at *; omega)
  have e8 : wrapInt (k.seq + 7 + 1) = k.seq + 8 :=
    wrapInt_succ k.seq 7 hS (by omega) (by unfold maxInt at *; omega)
  unfold WKey.Clear
  simp only [Key_log, Key_host, WKey.Key, KeyDown_log_cmd, KeyUp_log_cmd,
    KeyDown_k_allok t hok, KeyUp_k_allok t hok, e1, e2, e3, e4, e5, e6, e7, e8,
    List.append_assoc, List.singleton_append, List.cons_append, List.nil_append, and_self]

/-- C13 as stated fails at the top of the `int` range: from sequence
`2^63 - 1` with every response `ok`, the second request of `Clear` carries
`-9223372036854775808`, not `2^63`, and the final sequence is `-2^63 + 7`. -/
theorem Clear_overflow_counterexample :
    ((WKey.mk "h" 9223372036854775807).Clear (always "ok") []).2
        = ["http://h:7777/key?9223372036854775807,D35,",
          "http://h:7777/key?-9223372036854775808,U35,",
          "http://h:7777/key?-9223372036854775807,D16,",
          "http://h:7777/key?-9223372036854775806,D36,",
          "http://h:7777/key?-9223372036854775805,U36,",
          "http://h:7777/key?-9223372036854775804,U16,",
          "http://h:7777/key?-9223372036854775803,D46,",
          "http://h:7777/key?-9223372036854775802,U46,"]
      ∧ ((WKey.mk "h" 9223372036854775807).Clear (always "ok") []).1.seq
        = -9223372036854775801
      ∧ ((WKey.mk "h" 9223372036854775807).Clear (always "ok") []).1.seq
        ≠ 9223372036854775807 + 8 := by
  decide

/-- C13 (amended): for every session and every transport, `Clear()` issues
exactly eight requests whose payloads are, in order, `D35,` `U35,` `D16,`
`D36,` `U36,` `U16,` `D46,` `U46,` (End press, Shift down, Home press, Shift
up, Delete press, each attempted whatever happened before); and when every
response is `ok` and `S + 8` is representable as `int`, they carry the
sequence values `S`, `S+1`, ..., `S+7` and the final sequence is `S + 8`. -/
theorem Clear_requests (t : Transport) (k : WKey) (log : List String)
    (hS : isInt k.seq) :
    (∃ s1 s2 s3 s4 s5 s6 s7 s8 : Int,
      (k.Clear t log).2 = log ++ [
        commandUrl k.host s1 "D35,", commandUrl k.host s2 "U35,",
        commandUrl k.host s3 "D16,",
        commandUrl k.host s4 "D36,", commandUrl k.host s5 "U36,",
        commandUrl k.host s6 "U16,",
        commandUrl k.host s7 "D46,", commandUrl k.host s8 "U46,"])
      ∧ ((∀ l u, t l u = .body "ok") → k.seq + 8 ≤ maxInt →
          (k.Clear t log).2 = log ++ [
            commandUrl k.host k.seq "D35,", commandUrl k.host (k.seq + 1) "U35,",
            commandUrl k.host (k.seq + 2) "D16,",
            commandUrl k.host (k.seq + 3) "D36,", commandUrl k.host (k.seq + 4) "U36,",
            commandUrl k.host (k.seq + 5) "U16,",
            commandUrl k.host (k.seq + 6) "D46,", commandUrl k.host (k.seq + 7) "U46,"]
          ∧ (k.Clear t log).1.seq = k.seq + 8) := by
  have p1 : "D" ++ decimal END ++ "," = "D35," := by decide
  have p2 : "U" ++ decimal END ++ "," = "U35," := by decide
  have p3 : "D" ++ decimal SHIFT ++ "," = "D16," := by decide
  have p4 : "D" ++ decimal BEGIN ++ "," = "D36," := by decide
  have p5 : "U" ++ decimal BEGIN ++ "," = "U36," := by decide
  have p6 : "U" ++ decimal SHIFT ++ "," = "U16," := by decide
  have p7 : "D" ++ decimal DEL ++ "," = "D46," := by decide
  have p8 : "U" ++ decimal DEL ++ "," = "U46," := by decide
  refine ⟨?_, ?_⟩
  · obtain ⟨s2, s3, s4, s5, s6, s7, s8, h⟩ := Clear_log t k log
    rw [p1, p2, p3, p4, p5, p6, p7, p8] at h
    exact ⟨k.seq, s2, s3, s4, s5, s6, s7, s8, h⟩
  · intro hok h8
    have h := Clear_allok t hok k log hS h8
    rw [p1, p2, p3, p4, p5, p6, p7, p8] at h
    exact h

/-- C13 (amended), from sequence 10 on a device that answers `ok`: the eight
requests carry 10 to 17 and the final sequence is 18. -/
theorem Clear_requests_witness :
    ((WKey.mk "h" 10).Clear (always "ok") []).2
        = ["http://h:7777/key?10,D35,", "http://h:7777/key?11,U35,",
          "http://h:7777/key?12,D16,",
          "http://h:7777/key?13,D36,", "http://h:7777/key?14,U36,",
          "http://h:7777/key?15,U16,",
          "http://h:7777/key?16,D46,", "http://h:7777/key?17,U46,"]
      ∧ ((WKey.mk "h" 10).Clear (always "ok") []).1.seq = 18 :=
  have w := (Clear_requests (always "ok") (WKey.mk "h" 10) [] (by decide)).2
    (fun _ _ => rfl) (by decide)
  ⟨w.1.trans (by decide), w.2⟩

/-! ## The sequence counter never decreases short of overflow -/

theorem Connect_session (t : Transport) (log : List String) (host : String) (k : WKey)
    (h : (Connect t log host).1 = .session k) : 1 ≤ k.seq ∧ k.host = host := by
  unfold Connect at h
  split at h
  · cases h
  · split at h
    · cases h
    · simp only at h
      split at h
      · cases h
      · rename_i hlt
        cases h
        exact ⟨not_lt.1 hlt, rfl⟩

theorem Send_seq_bounds (t : Transport) (k : WKey) (s : String) (log : List String)
    (hS : isInt k.seq) (h : k.seq + s.length ≤ maxInt) :
    (k.Send t s log).k.seq = k.seq + s.length := by
  rw [(Send_request t k s log hS).2]
  apply wrapInt_of_isInt
  unfold isInt minInt maxInt at *
  omega

theorem KeyDown_seq_bounds (t : Transport) (k : WKey) (c : Int) (log : List String)
    (hS : isInt k.seq) (h : k.seq + 1 ≤ maxInt) :
    k.seq ≤ (k.KeyDown t c log).k.seq ∧ (k.KeyDown t c log).k.seq ≤ k.seq + 1 := by
  rcases KeyDown_k_cases t k c log with e | e
  · rw [e]
    omega
  · rw [e]
    show k.seq ≤ wrapInt (k.seq + 1) ∧ wrapInt (k.seq + 1) ≤ k.seq + 1
    unfold isInt minInt maxInt at *
    unfold wrapInt
    omega

theorem KeyUp_seq_bounds (t : Transport) (k : WKey) (c : Int) (log : List String)
    (hS : isInt k.seq) (h : k.seq + 1 ≤ maxInt) :
    k.seq ≤ (k.KeyUp t c log).k.seq ∧ (k.KeyUp t c log).k.seq ≤ k.seq + 1 := by
  rcases KeyUp_k_cases t k c log with e | e
  · rw [e]
    omega
  · rw [e]
    show k.seq ≤ wrapInt (k.seq + 1) ∧ wrapInt (k.seq + 1) ≤ k.seq + 1
    unfold isInt minInt maxInt at *
    unfold wrapInt
    omega

theorem Key_seq_bounds (t : Transport) (k : WKey) (c : Int) (log : List String)
    (hS : isInt k.seq) (h : k.seq + 2 ≤ maxInt) :
    k.seq ≤ (k.Key t c log).1.seq ∧ (k.Key t c log).1.seq ≤ k.seq + 2 := by
  have h1 := KeyDown_seq_bounds t k c log hS (by unfold maxInt at *; omega)
  have h2 := KeyUp_seq_bounds t (k.KeyDown t c log).k c (k.KeyDown t c log).log
    (by unfold isInt minInt maxInt at *; omega) (by unfold maxInt at *; omega)
  show k.seq ≤ ((k.KeyDown t c log).k.KeyUp t c (k.KeyDown t c log).log).k.seq
    ∧ ((k.KeyDown t c log).k.KeyUp t c (k.KeyDown t c log).log).k.seq ≤ k.seq + 2
  omega

theorem Clear_seq_bounds (t : Transport) (k : WKey) (log : List String)
    (hS : isInt k.seq) (h : k.seq + 8 ≤ maxInt) :
    k.seq ≤ (k.Clear t log).1.seq ∧ (k.Clear t log).1.seq ≤ k.seq + 8 := by
  have ha := Key_seq_bounds t k END log hS (by unfold maxInt at *; omega)
  have hb := KeyDown_seq_bounds t (k.Key t END log).1 SHIFT (k.Key t END log).2
    (by unfold isInt minInt maxInt at *; omega) (by unfold maxInt at *; omega)
  have hc := Key_seq_bounds t ((k.Key t END log).1.KeyDown t SHIFT (k.Key t END log).2).k BEGIN
    ((k.Key t END log).1.KeyDown t SHIFT (k.Key t END log).2).log
    (by unfold isInt minInt maxInt at *; omega) (by unfold maxInt at *; omega)
  have hd := KeyUp_seq_bounds t
    (((k.Key t END log).1.KeyDown t SHIFT (k.Key t END log).2).k.Key t BEGIN
      ((k.Key t END log).1.KeyDown t SHIFT (k.Key t END log).2).log).1 SHIFT
    (((k.Key t END log).1.KeyDown t SHIFT (k.Key t END log).2).k.Key t BEGIN
      ((k.Key t END log).1.KeyDown t SHIFT (k.Key t END log).2).log).2
    (by unfold isInt minInt maxInt at *; omega) (by unfold maxInt at *; omega)
  have he := Key_seq_bounds t
    ((((k.Key t END log).1.KeyDown t SHIFT (k.Key t END log).2).k.Key t BEGIN
      ((k.Key t END log).1.KeyDown t SHIFT (k.Key t END log).2).log).1.KeyUp t SHIFT
    (((k.Key t END log).1.KeyDown t SHIFT (k.Key t END log).2).k.Key t BEGIN
      ((k.Key t END log).1.KeyDown t SHIFT (k.Key t END log).2).log).2).k DEL
    ((((k.Key t END log).1.KeyDown t SHIFT (k.Key t END log).2).k.Key t BEGIN
      ((k.Key t END log).1.KeyDown t SHIFT (k.Key t END log).2).log).1.KeyUp t SHIFT
    (((k.Key t END log).1.KeyDown t SHIFT (k.Key t END log).2).k.Key t BEGIN
      ((k.Key t END log).1.KeyDown t SHIFT (k.Key t END log).2).log).2).log
    (by unfold isInt minInt maxInt at *; omega) (by unfold maxInt at *; omega)
  unfold WKey.Clear
  simp only
  omega

/-- C14 as stated fails at the top of the `int` range: `Connect` returns a
session at `2^63 - 1` when the device reports it, and an accepted `KeyUp`
from there leaves the sequence at `-2^63`, which is below the sequence before
and below 1. -/
theorem sequence_decreases_counterexample :
    (Connect (always "seqConfirmed = 9223372036854775807;") [] "h").1
        = .session (WKey.mk "h" 9223372036854775807)
      ∧ ((WKey.mk "h" 9223372036854775807).KeyUp (always "ok") RETURN []).k.seq
        = -9223372036854775808
      ∧ ¬ ((WKey.mk "h" 9223372036854775807).seq
          ≤ ((WKey.mk "h" 9223372036854775807).KeyUp (always "ok") RETURN []).k.seq)
      ∧ ¬ (1 ≤ ((WKey.mk "h" 9223372036854775807).KeyUp (always "ok") RETURN []).k.seq) := by
  decide

/-- C14 (amended): every session returned by `Connect` has sequence at least
1, and for every operation, argument and transport the sequence after the
operation is at least the sequence before, provided the increments cannot
overflow `int`: `S + n ≤ 2^63 - 1` for `Send` of `n` code points, `S + 1` for
`KeyDown` and `KeyUp`, `S + 2` for `Key`, `S + 8` for `Clear`. -/
theorem sequence_nondecreasing_within_int (t : Transport) (k : WKey) (s : String)
    (c : Int) (log : List String) (hS : isInt k.seq) :
    (∀ host k0, (Connect t log host).1 = .session k0 → 1 ≤ k0.seq)
      ∧ (k.seq + s.length ≤ maxInt → k.seq ≤ (k.Send t s log).k.seq)
      ∧ (k.seq + 1 ≤ maxInt →
          k.seq ≤ (k.KeyDown t c log).k.seq ∧ k.seq ≤ (k.KeyUp t c log).k.seq)
      ∧ (k.seq + 2 ≤ maxInt → k.seq ≤ (k.Key t c log).1.seq)
      ∧ (k.seq + 8 ≤ maxInt → k.seq ≤ (k.Clear t log).1.seq) := by
  refine ⟨fun host k0 h => (Connect_session t log host k0 h).1, ?_, ?_, ?_, ?_⟩
  · intro h
    rw [Send_seq_bounds t k s log hS h]
    omega
  · intro h
    exact ⟨(KeyDown_seq_bounds t k c log hS h).1, (KeyUp_seq_bounds t k c log hS h).1⟩
  · intro h
    exact (Key_seq_bounds t k c log hS h).1
  · intro h
    exact (Clear_seq_bounds t k log hS h).1

/-- C14 (amended), on a page reporting 12 and on a session at sequence 10 with
a device that answers `ok`. -/
theorem sequence_nondecreasing_within_int_witness :
    (1 : Int) ≤ (WKey.mk "h" 12).seq
      ∧ (10 : Int) ≤ ((WKey.mk "h" 10).Send (always "ok") "AB" []).k.seq
      ∧ (10 : Int) ≤ ((WKey.mk "h" 10).KeyDown (always "ok") RETURN []).k.seq
      ∧ (10 : Int) ≤ ((WKey.mk "h" 10).KeyUp (always "ok") RETURN []).k.seq
      ∧ (10 : Int) ≤ ((WKey.mk "h" 10).Key (always "ok") RETURN []).1.seq
      ∧ (10 : Int) ≤ ((WKey.mk "h" 10).Clear (always "ok") []).1.seq :=
  have w := sequence_nondecreasing_within_int (always "ok") (WKey.mk "h" 10) "AB" RETURN []
    (by decide)
  have v := sequence_nondecreasing_within_int (always "seqConfirmed = 12;") (WKey.mk "h" 10)
    "AB" RETURN [] (by decide)
  ⟨v.1 "h" (WKey.mk "h" 12) (by decide), w.2.1 (by decide), (w.2.2.1 (by decide)).1,
    (w.2.2.1 (by decide)).2, w.2.2.2.1 (by decide), w.2.2.2.2 (by decide)⟩

/-! ## The address never changes -/

theorem targets_single (host : String) (log : List String) (S : Int) (payload : String) :
    Targets host log (log ++ [commandUrl host S payload]) := by
  refine ⟨[commandUrl host S payload], rfl, ?_⟩
  intro u hu
  rw [List.mem_singleton] at hu
  rw [hu]
  exact commandUrl_targets host S payload

theorem targets_trans (host : String) (a b c : List String)
    (h1 : Targets host a b) (h2 : Targets host b c) : Targets host a c := by
  obtain ⟨x, hx, hx2⟩ := h1
  obtain ⟨y, hy, hy2⟩ := h2
  refine ⟨x ++ y, by rw [hy, hx, List.append_assoc], ?_⟩
  intro u hu
  rcases List.mem_append.1 hu with h | h
  · exact hx2 u h
  · exact hy2 u h

theorem KeyDown_targets (t : Transport) (k : WKey) (c : Int) (log : List String) :
    Targets k.host log (k.KeyDown t c log).log := by
  rw [KeyDown_log_cmd]
  exact targets_single _ _ _ _

theorem KeyUp_targets (t : Transport) (k : WKey) (c : Int) (log : List String) :
    Targets k.host log (k.KeyUp t c log).log := by
  rw [KeyUp_log_cmd]
  exact targets_single _ _ _ _

theorem Key_targets (t : Transport) (k : WKey) (c : Int) (log : List String) :
    Targets k.host log (k.Key t c log).2 := by
  have h1 := KeyDown_targets t k c log
  have h2 := KeyUp_targets t (k.KeyDown t c log).k c (k.KeyDown t c log).log
  rw [KeyDown_host] at h2
  exact targets_trans _ _ _ _ h1 h2

theorem Clear_host (t : Transport) (k : WKey) (log : List String) :
    (k.Clear t log).1.host = k.host := by
  unfold WKey.Clear
  simp only [Key_host, KeyDown_host, KeyUp_host]

theorem Clear_targets (t : Transport) (k : WKey) (log : List String) :
    Targets k.host log (k.Clear t log).2 := by
  obtain ⟨s2, s3, s4, s5, s6, s7, s8, h⟩ := Clear_log t k log
  rw [h]
  refine ⟨_, rfl, ?_⟩
  intro u hu
  simp only [List.mem_cons, List.mem_singleton, List.not_mem_nil, or_false] at hu
  rcases hu with h | h | h | h | h | h | h | h <;> rw [h] <;> exact commandUrl_targets _ _ _

/-- C15: the address of a session never changes: for every operation (`Send`,
`KeyDown`, `KeyUp`, `Key`, `Clear`), every argument and every transport, the
host field after the operation equals the host field before, and every
request the operation issues goes to `http://<that host>:7777/`. -/
theorem host_immutable (t : Transport) (k : WKey) (s : String) (c : Int)
    (log : List String) :
    ((k.Send t s log).k.host = k.host ∧ Targets k.host log (k.Send t s log).log)
      ∧ ((k.KeyDown t c log).k.host = k.host ∧ Targets k.host log (k.KeyDown t c log).log)
      ∧ ((k.KeyUp t c log).k.host = k.host ∧ Targets k.host log (k.KeyUp t c log).log)
      ∧ ((k.Key t c log).1.host = k.host ∧ Targets k.host log (k.Key t c log).2)
      ∧ ((k.Clear t log).1.host = k.host ∧ Targets k.host log (k.Clear t log).2) := by
  refine ⟨⟨?_, ?_⟩, ⟨KeyDown_host t k c log, KeyDown_targets t k c log⟩,
    ⟨KeyUp_host t k c log, KeyUp_targets t k c log⟩,
    ⟨Key_host t k c log, Key_targets t k c log⟩,
    ⟨Clear_host t k log, Clear_targets t k log⟩⟩
  · rw [(Send_raw t k s log).2]
  · rw [(Send_raw t k s log).1]
    exact targets_single _ _ _ _

/-! ## `Send` with the empty string -/

/-- C16 as stated fails at the bottom of the `int` range: the session at
`-2^63`, which an accepted `KeyDown` reaches from the session `Connect`
returns for `2^63 - 1`, requests `key?9223372036854775807,` for `Send("")`,
not `key?-9223372036854775809,`. -/
theorem Send_empty_underflow_counterexample :
    (Connect (always "seqConfirmed = 9223372036854775807;") [] "h").1
        = .session (WKey.mk "h" 9223372036854775807)
      ∧ ((WKey.mk "h" 9223372036854775807).KeyDown (always "ok") RETURN []).k
        = WKey.mk "h" (-9223372036854775808)
      ∧ ((WKey.mk "h" (-9223372036854775808)).Send (always "ok") "" []).log
        = ["http://h:7777/key?9223372036854775807,"]
      ∧ ((WKey.mk "h" (-9223372036854775808)).Send (always "ok") "" []).log
        ≠ ["http://h:7777/key?" ++ decimal (-9223372036854775808 - 1) ++ ","] := by
  decide

/-- C16 (amended): for every session at a sequence `S` above `-2^63` (so that
`S - 1` is representable as `int`), `Send("")` still issues exactly one
request, whose URL is `http://<host>:7777/key?<S-1>,` with an empty payload,
and the sequence is `S` afterwards whatever the response. -/
theorem Send_empty_within_int (t : Transport) (k : WKey) (log : List String)
    (hS : isInt k.seq) (hgt : minInt < k.seq) :
    (k.Send t "" log).log
        = log ++ ["http://" ++ k.host ++ ":7777/key?" ++ decimal (k.seq - 1) ++ ","]
      ∧ (k.Send t "" log).k.seq = k.seq := by
  have h := Send_request t k "" log hS
  have hl : (("".length : Nat) : Int) = 0 := rfl
  have hr : reversedFragments "".toList = "" := rfl
  have e1 : wrapInt (k.seq + 0 - 1) = k.seq - 1 := by
    unfold isInt minInt maxInt at *
    unfold wrapInt
    omega
  have e2 : wrapInt (k.seq + 0) = k.seq := by
    rw [add_zero]
    exact wrapInt_of_isInt hS
  rw [hl, hr, e1, e2, String.append_empty] at h
  exact ⟨h.1, by rw [h.2]⟩

/-- C16 (amended), at sequence 10: one request `key?9,` and the sequence stays
10, on a rejecting device. -/
theorem Send_empty_within_int_witness :
    ((WKey.mk "h" 10).Send (always "busy") "" []).log = ["http://h:7777/key?9,"]
      ∧ ((WKey.mk "h" 10).Send (always "busy") "" []).k.seq = 10 :=
  have w := Send_empty_within_int (always "busy") (WKey.mk "h" 10) [] (by decide) (by decide)
  ⟨w.1.trans (by decide), w.2⟩

/-! ## `Key`: the sequence values of its two requests -/

/-- C17 as stated fails at the top of the `int` range: from sequence
`2^63 - 1`, when the key-down is rejected and the key-up is answered `ok`, the
final sequence is `-2^63`, not `2^63`. -/
theorem Key_overflow_counterexample :
    ((WKey.mk "h" 9223372036854775807).Key rejectFirst RETURN []).2
        = ["http://h:7777/key?9223372036854775807,D13,",
          "http://h:7777/key?9223372036854775807,U13,"]
      ∧ ((WKey.mk "h" 9223372036854775807).Key rejectFirst RETURN []).1.seq
        = -9223372036854775808
      ∧ ((WKey.mk "h" 9223372036854775807).Key rejectFirst RETURN []).1.seq
        ≠ 9223372036854775807 + 1 := by
  decide

/-- C17 (amended): in `Key(c)` from sequence `S`: if the key-down request
fails (rejected or transport error), the key-up request is issued at the same
sequence value `S`, and if that key-up is answered `ok` and `S + 1` is
representable as `int` the final sequence is `S + 1`; if both requests are
answered `ok` and `S + 2` is representable, they carry `S` and `S + 1` and the
final sequence is `S + 2`. -/
theorem Key_sequence_within_int (t : Transport) (k : WKey) (c : Int) (log : List String)
    (hS : isInt k.seq) :
    (t log (commandUrl k.host k.seq ("D" ++ decimal c ++ ",")) ≠ .body "ok" →
        (k.Key t c log).2 = log ++ [commandUrl k.host k.seq ("D" ++ decimal c ++ ","),
          commandUrl k.host k.seq ("U" ++ decimal c ++ ",")]
        ∧ (k.seq + 1 ≤ maxInt →
            t (log ++ [commandUrl k.host k.seq ("D" ++ decimal c ++ ",")])
              (commandUrl k.host k.seq ("U" ++ decimal c ++ ",")) = .body "ok" →
            (k.Key t c log).1.seq = k.seq + 1))
      ∧ (k.seq + 2 ≤ maxInt →
          t log (commandUrl k.host k.seq ("D" ++ decimal c ++ ",")) = .body "ok" →
          t (log ++ [commandUrl k.host k.seq ("D" ++ decimal c ++ ",")])
            (commandUrl k.host (k.seq + 1) ("U" ++ decimal c ++ ",")) = .body "ok" →
          (k.Key t c log).2 = log ++ [commandUrl k.host k.seq ("D" ++ decimal c ++ ","),
            commandUrl k.host (k.seq + 1) ("U" ++ decimal c ++ ",")]
          ∧ (k.Key t c log).1.seq = k.seq + 2) := by
  refine ⟨?_, ?_⟩
  · intro hfail
    have hk := KeyDown_k_of_not_ok t k c log hfail
    refine ⟨by rw [Key_log, hk], ?_⟩
    intro h1 hup
    have e : wrapInt (k.seq + 1) = k.seq + 1 := by
      unfold isInt minInt maxInt at *
      unfold wrapInt
      omega
    show ((k.KeyDown t c log).k.KeyUp t c (k.KeyDown t c log).log).k.seq = k.seq + 1
    rw [KeyDown_log_cmd, hk, KeyUp_k_of_ok t k c _ hup, e]
  · intro h2 hdown hup
    have hk := KeyDown_k_of_ok t k c log hdown
    have e1 : wrapInt (k.seq + 1) = k.seq + 1 := by
      unfold isInt minInt maxInt at *
      unfold wrapInt
      omega
    have e2 : wrapInt (k.seq + 1 + 1) = k.seq + 2 := by
      unfold isInt minInt maxInt at *
      unfold wrapInt
      omega
    rw [e1] at hk
    refine ⟨by rw [Key_log, hk], ?_⟩
    show ((k.KeyDown t c log).k.KeyUp t c (k.KeyDown t c log).log).k.seq = k.seq + 2
    rw [KeyDown_log_cmd, hk, KeyUp_k_of_ok t _ c _ hup, e2]

/-- C17 (amended), from sequence 10: a device that rejects the first request
and accepts the second, and a device that accepts both. -/
theorem Key_sequence_within_int_witness :
    (((WKey.mk "h" 10).Key rejectFirst RETURN []).2
          = ["http://h:7777/key?10,D13,", "http://h:7777/key?10,U13,"]
        ∧ ((WKey.mk "h" 10).Key rejectFirst RETURN []).1.seq = 11)
      ∧ (((WKey.mk "h" 10).Key (always "ok") RETURN []).2
          = ["http://h:7777/key?10,D13,", "http://h:7777/key?11,U13,"]
        ∧ ((WKey.mk "h" 10).Key (always "ok") RETURN []).1.seq = 12) :=
  have w := (Key_sequence_within_int rejectFirst (WKey.mk "h" 10) RETURN [] (by decide)).1
    (fun h => absurd
      (HttpOutcome.body.inj (h : HttpOutcome.body "busy" = HttpOutcome.body "ok"))
      (by decide))
  have v := (Key_sequence_within_int (always "ok") (WKey.mk "h" 10) RETURN [] (by decide)).2
    (by decide) rfl rfl
  ⟨⟨w.1.trans (by decide), w.2 (by decide) rfl⟩, ⟨v.1.trans (by decide), v.2⟩⟩

/-! ## Batching -/

theorem validUTF8_cons (p0 : Nat) (rest : List Nat) :
    validUTF8 (p0 :: rest) =
      if p0 < 128 then validUTF8 rest
      else if seqSize p0 = 2 then
        match rest with
        | b1 :: tl => accepts p0 b1 && validUTF8 tl
        | _ => false
      else if seqSize p0 = 3 then
        match rest with
        | b1 :: b2 :: tl => accepts p0 b1 && isCont b2 && validUTF8 tl
        | _ => false
      else if seqSize p0 = 4 then
        match rest with
        | b1 :: b2 :: b3 :: tl => accepts p0 b1 && isCont b2 && isCont b3 && validUTF8 tl
        | _ => false
      else false := by
  cases rest with
  | nil => rfl
  | cons b1 r1 =>
    cases r1 with
    | nil => rfl
    | cons b2 r2 =>
      cases r2 with
      | nil => rfl
      | cons b3 r3 => rfl

theorem decodeRunes_cons (p0 : Nat) (rest : List Nat) :
    decodeRunes (p0 :: rest) =
      if p0 < 128 then Char.ofNat p0 :: decodeRunes rest
      else if seqSize p0 = 2 then
        match rest with
        | b1 :: tl =>
          if accepts p0 b1 then
            Char.ofNat (p0 % 32 * 64 + b1 % 64) :: decodeRunes tl
          else runeError :: decodeRunes rest
        | _ => runeError :: decodeRunes rest
      else if seqSize p0 = 3 then
        match rest with
        | b1 :: b2 :: tl =>
          if accepts p0 b1 && isCont b2 then
            Char.ofNat (p0 % 16 * 4096 + b1 % 64 * 64 + b2 % 64) :: decodeRunes tl
          else runeError :: decodeRunes rest
        | _ => runeError :: decodeRunes rest
      else if seqSize p0 = 4 then
        match rest with
        | b1 :: b2 :: b3 :: tl =>
          if accepts p0 b1 && isCont b2 && isCont b3 then
            Char.ofNat (p0 % 8 * 262144 + b1 % 64 * 4096 + b2 % 64 * 64 + b3 % 64)
              :: decodeRunes tl
          else runeError :: decodeRunes rest
        | _ => runeError :: decodeRunes rest
      else runeError :: decodeRunes rest := by
  cases rest with
  | nil => rfl
  | cons b1 r1 =>
    cases r1 with
    | nil => rfl
    | cons b2 r2 =>
      cases r2 with
      | nil => rfl
      | cons b3 r3 => rfl

theorem decodeRunes_append_aux (b2 : List Nat) (n : Nat) :
    ∀ b1 : List Nat, b1.length ≤ n → validUTF8 b1 = true →
      decodeRunes (b1 ++ b2) = decodeRunes b1 ++ decodeRunes b2 := by
  induction n with
  | zero =>
    intro b1 hlen _
    have : b1 = [] := List.length_eq_zero.1 (Nat.le_zero.1 hlen)
    rw [this]
    rfl
  | succ n ih =>
    intro b1 hlen h
    cases b1 with
    | nil => rfl
    | cons p0 rest =>
      rw [validUTF8_cons] at h
      rw [List.cons_append, decodeRunes_cons p0 (rest ++ b2), decodeRunes_cons p0 rest]
      simp only [List.length_cons] at hlen
      by_cases hlt : p0 < 128
      · simp only [if_pos hlt] at h ⊢
        rw [ih rest (by omega) h, List.cons_append]
      · simp only [if_neg hlt] at h ⊢
        by_cases h2 : seqSize p0 = 2
        · simp only [if_pos h2] at h ⊢
          cases rest with
          | nil => cases h
          | cons c1 tl =>
            simp only [Bool.and_eq_true] at h
            simp only [List.length_cons] at hlen
            simp only [List.cons_append, if_pos h.1]
            rw [ih tl (by omega) h.2]
        · simp only [if_neg h2] at h ⊢
          by_cases h3 : seqSize p0 = 3
          · simp only [if_pos h3] at h ⊢
            cases rest with
            | nil => cases h
            | cons c1 r1 =>
              cases r1 with
              | nil => cases h
              | cons c2 tl =>
                simp only [Bool.and_eq_true] at h
                simp only [List.length_cons] at hlen
                simp only [List.cons_append, h.1.1, h.1.2, Bool.and_self, if_true]
                rw [ih tl (by omega) h.2]
          · simp only [if_neg h3] at h ⊢
            by_cases h4 : seqSize p0 = 4
            · simp only [if_pos h4] at h ⊢
              cases rest with
              | nil => cases h
              | cons c1 r1 =>
                cases r1 with
                | nil => cases h
                | cons c2 r2 =>
                  cases r2 with
                  | nil => cases h
                  | cons c3 tl =>
                    simp only [Bool.and_eq_true] at h
                    simp only [List.length_cons] at hlen
                    simp only [List.cons_append, h.1.1.1, h.1.1.2, h.1.2, Bool.and_self,
                      if_true]
                    rw [ih tl (by omega) h.2]
            · simp only [if_neg h4] at h
              cases h

theorem decodeRunes_append (b1 b2 : List Nat) (h : validUTF8 b1 = true) :
    decodeRunes (b1 ++ b2) = decodeRunes b1 ++ decodeRunes b2 :=
  decodeRunes_append_aux b2 b1.length b1 (le_refl _) h

theorem Send_err_allok (t : Transport) (hok : ∀ l u, t l u = .body "ok")
    (k : WKey) (s : String) (log : List String) (hS : isInt k.seq) :
    (k.Send t s log).err = none := by
  rw [Send_err_body t k s log hS "ok" (hok _ _), if_pos rfl]

theorem Send_twice_seq (t : Transport) (k : WKey) (s1 s2 : String)
    (log : List String) (hS : isInt k.seq) :
    ((k.Send t s1 log).k.Send t s2 (k.Send t s1 log).log).k.seq
      = wrapInt (k.seq + s1.length + s2.length) := by
  have h1 := (Send_request t k s1 log hS).2
  have h2 := (Send_request t (k.Send t s1 log).k s2 (k.Send t s1 log).log
    (by rw [h1]; exact isInt_wrapInt _)).2
  rw [h2, h1]
  exact wrapInt_wrapInt_add _ _

/-- C18 as stated fails in two ways.  At the top of the `int` range: from
sequence `2^63 - 1` with every response `ok`, `Send("A")` then `Send("B")` and
the single `Send("AB")` both leave the sequence at `-2^63 + 1`, not at
`2^63 + 1`.  On strings that are not well-formed UTF-8: from sequence 10 with
every response `ok`, `Send("\xc3")` then `Send("\xa9")` yields one error rune
each and ends at 12, while the single `Send("\xc3\xa9")` sees one rune and
ends at 11. -/
theorem Send_batching_counterexample :
    (((WKey.mk "h" 9223372036854775807).SendBytes (always "ok") [65] []).k.SendBytes
        (always "ok") [66]
        ((WKey.mk "h" 9223372036854775807).SendBytes (always "ok") [65] []).log).k.seq
        = -9223372036854775807
      ∧ ((WKey.mk "h" 9223372036854775807).SendBytes (always "ok") ([65] ++ [66]) []).k.seq
        = -9223372036854775807
      ∧ ((WKey.mk "h" 9223372036854775807).SendBytes (always "ok") ([65] ++ [66]) []).k.seq
        ≠ 9223372036854775807 + ((decodeRunes [65]).length : Int)
          + ((decodeRunes [66]).length : Int)
      ∧ decodeRunes [195] = [runeError] ∧ decodeRunes [169] = [runeError]
      ∧ decodeRunes ([195] ++ [169]) = [Char.ofNat 233]
      ∧ ((WKey.mk "h" 10).SendBytes (always "ok") [195] []).err = none
      ∧ (((WKey.mk "h" 10).SendBytes (always "ok") [195] []).k.SendBytes (always "ok") [169]
          ((WKey.mk "h" 10).SendBytes (always "ok") [195] []).log).err = none
      ∧ (((WKey.mk "h" 10).SendBytes (always "ok") [195] []).k.SendBytes (always "ok") [169]
          ((WKey.mk "h" 10).SendBytes (always "ok") [195] []).log).k.seq = 12
      ∧ ((WKey.mk "h" 10).SendBytes (always "ok") ([195] ++ [169]) []).err = none
      ∧ ((WKey.mk "h" 10).SendBytes (always "ok") ([195] ++ [169]) []).k.seq = 11 := by
  decide

/-- C18 (amended): for every session at sequence `S` and all strings `s1`,
`s2` of which `s1` is well-formed UTF-8, with a transport that answers `ok` to
every request, the three `Send` calls return no error and the sequence after
`Send(s1)` followed by `Send(s2)` equals the sequence after a single
`Send(s1 ++ s2)`; it is `S + len(s1) + len(s2)`, counted in the code points
`range` yields, when that number is representable as `int`. -/
theorem Send_batching_additive (t : Transport) (k : WKey) (s1 s2 : List Nat)
    (log : List String) (hok : ∀ l u, t l u = .body "ok") (hS : isInt k.seq)
    (hv : validUTF8 s1 = true) :
    (k.SendBytes t s1 log).err = none
      ∧ ((k.SendBytes t s1 log).k.SendBytes t s2 (k.SendBytes t s1 log).log).err = none
      ∧ (k.SendBytes t (s1 ++ s2) log).err = none
      ∧ ((k.SendBytes t s1 log).k.SendBytes t s2 (k.SendBytes t s1 log).log).k.seq
        = (k.SendBytes t (s1 ++ s2) log).k.seq
      ∧ (k.seq + (decodeRunes s1).length + (decodeRunes s2).length ≤ maxInt →
          (k.SendBytes t (s1 ++ s2) log).k.seq
            = k.seq + (decodeRunes s1).length + (decodeRunes s2).length) := by
  have happ : String.mk (decodeRunes (s1 ++ s2))
      = String.mk (decodeRunes s1) ++ String.mk (decodeRunes s2) := by
    rw [decodeRunes_append s1 s2 hv]
    rfl
  have hk1 := (Send_request t k (String.mk (decodeRunes s1)) log hS).2
  have hS1 : isInt (k.Send t (String.mk (decodeRunes s1)) log).k.seq := by
    rw [hk1]
    exact isInt_wrapInt _
  have hl1 : ((String.mk (decodeRunes s1)).length : Int) = (decodeRunes s1).length := rfl
  have hl2 : ((String.mk (decodeRunes s2)).length : Int) = (decodeRunes s2).length := rfl
  have hl : (((String.mk (decodeRunes s1) ++ String.mk (decodeRunes s2)).length : Nat) : Int)
      = ((decodeRunes s1).length : Int) + ((decodeRunes s2).length : Int) := by
    rw [String.length_append]
    push_cast
    rfl
  have h12 := (Send_request t k (String.mk (decodeRunes s1) ++ String.mk (decodeRunes s2))
    log hS).2
  rw [hl, ← add_assoc] at h12
  have h2 := Send_twice_seq t k (String.mk (decodeRunes s1)) (String.mk (decodeRunes s2))
    log hS
  rw [hl1, hl2] at h2
  unfold WKey.SendBytes
  rw [happ]
  refine ⟨Send_err_allok t hok k _ log hS, Send_err_allok t hok _ _ _ hS1,
    Send_err_allok t hok k _ log hS, ?_, ?_⟩
  · rw [h2, h12]
  · intro hle
    rw [h12]
    apply wrapInt_of_isInt
    unfold isInt minInt maxInt at *
    omega

/-- C18 (amended), from sequence 10 with the well-formed two-byte string `é`
and the string `B` on a device that answers `ok`: both ways end at 12. -/
theorem Send_batching_additive_witness :
    ((WKey.mk "h" 10).SendBytes (always "ok") [195, 169] []).err = none
      ∧ (((WKey.mk "h" 10).SendBytes (always "ok") [195, 169] []).k.SendBytes (always "ok")
          [66] ((WKey.mk "h" 10).SendBytes (always "ok") [195, 169] []).log).err = none
      ∧ ((WKey.mk "h" 10).SendBytes (always "ok") ([195, 169] ++ [66]) []).err = none
      ∧ (((WKey.mk "h" 10).SendBytes (always "ok") [195, 169] []).k.SendBytes (always "ok")
          [66] ((WKey.mk "h" 10).SendBytes (always "ok") [195, 169] []).log).k.seq
        = ((WKey.mk "h" 10).SendBytes (always "ok") ([195, 169] ++ [66]) []).k.seq
      ∧ ((WKey.mk "h" 10).SendBytes (always "ok") ([195, 169] ++ [66]) []).k.seq
        = 10 + ((decodeRunes [195, 169]).length : Int) + ((decodeRunes [66]).length : Int) :=
  have w := Send_batching_additive (always "ok") (WKey.mk "h" 10) [195, 169] [66] []
    (fun _ _ => rfl) (by decide) (by decide)
  ⟨w.1, w.2.1, w.2.2.1, w.2.2.2.1, w.2.2.2.2 (by decide)⟩

/-! ## `Connect` drops the conversion error -/

/-- C19: `Connect` discards the error of `strconv.Atoi`: for a status page
whose leftmost `seqConfirmed = <digits>;` carries a number above `2^63 - 1`,
`Atoi` returns the clamped value `2^63 - 1` with a range error, and `Connect`
does not fail but returns a session whose sequence is `2^63 - 1`, not the
number in the body. -/
theorem Connect_clamps_large_number (t : Transport) (log : List String)
    (host body : String) (ds : List Char)
    (hb : t log ("http://" ++ host ++ ":7777/") = .body body)
    (hf : ∃ pre, FirstMatchAfter body.toList pre ds)
    (hbig : maxInt < (decimalValue ds : Int)) :
    Atoi ds = (9223372036854775807, some .range)
      ∧ (Connect t log host).1 = .session { host := host, seq := 9223372036854775807 }
      ∧ (9223372036854775807 : Int) ≠ decimalValue ds := by
  obtain ⟨pre, hpre⟩ := hf
  have hC := Connect_of_firstMatch t log host body pre ds hb hpre
  obtain ⟨⟨rest, -, post, -, hne, hd⟩, -⟩ := hpre
  have hA := Atoi_of_digits ds hne hd
  rw [if_pos hbig] at hA
  have h1 : ¬ decimalValue ds < 1 := by
    unfold maxInt at hbig
    omega
  rw [if_neg h1, min_eq_right (le_of_lt hbig)] at hC
  refine ⟨hA, hC, ?_⟩
  unfold maxInt at hbig
  omega

/-- C19, on the page `seqConfirmed = 99999999999999999999;`. -/
theorem Connect_clamps_large_number_witness :
    Atoi "99999999999999999999".toList = (9223372036854775807, some .range)
      ∧ (Connect (always "<script>seqConfirmed = 99999999999999999999;</script>") []
          "h").1 = .session { host := "h", seq := 9223372036854775807 }
      ∧ (9223372036854775807 : Int) ≠ decimalValue "99999999999999999999".toList :=
  Connect_clamps_large_number (always "<script>seqConfirmed = 99999999999999999999;</script>")
    [] "h" "<script>seqConfirmed = 99999999999999999999;</script>"
    "99999999999999999999".toList rfl (findSubmatch_firstMatch _ _ (by decide)) (by decide)

end wkey
